import Mathlib

/-!
# kool `preset` command (`cmd/preset.go`)

A shallow embedding of `KoolPreset.Execute`, `parseYml` and the command handler
built by `NewPresetCommand`.

* Go strings are modelled by Lean `String` (sequences of Unicode scalar values, that is
  valid UTF-8 only).
* A Go `error` is represented by the message its `Error()` method returns: this is the
  only observation the command handler makes of an error.
* Collaborators that live outside `cmd/preset.go` (the presets parser, the terminal
  checker, the prompt, the template store, the yaml library and the Unicode case table)
  are parameters.  No collaborator is called twice with the same arguments during one
  run, so a function of the arguments describes any behaviour of one run.
* Every call to a collaborator is recorded, in program order, in a trace of events.
-/

namespace Kool

/-! ## Go strings -/

/-- Go `unicode.ToLower`: the ASCII branch is inlined in the Go library, the branch for
runes above `MaxASCII` consults the Unicode case table `tbl`. -/
def unicodeToLower (tbl : Char → Char) (r : Char) : Char :=
  if r.val ≤ 127 then
    (if 'A'.val ≤ r.val ∧ r.val ≤ 'Z'.val then Char.ofNat (r.val.toNat + ('a'.val.toNat - 'A'.val.toNat)) else r)
  else tbl r

/-- Go `strings.ToLower`: every rune mapped through `unicode.ToLower`. -/
def ToLower (tbl : Char → Char) (s : String) : String :=
  String.mk (s.data.map (unicodeToLower tbl))

/-- Scanning loop of `strings.Replace` for a non-empty `old`: `skip` counts the runes of
a matched occurrence of `old` that remain to be dropped. -/
def replaceScan (old new : List Char) : List Char → Nat → List Char
  | [], _ => []
  | _ :: cs, skip + 1 => replaceScan old new cs skip
  | c :: cs, 0 =>
    if old.isPrefixOf (c :: cs) then new ++ replaceScan old new cs (old.length - 1)
    else c :: replaceScan old new cs 0

/-- Go `strings.ReplaceAll`: all non-overlapping occurrences of `old` replaced by `new`,
scanning from the left; an empty `old` matches before every rune and at the end. -/
def ReplaceAll (s old new : String) : String :=
  if old.data = [] then String.mk (new.data ++ s.data.flatMap (fun c => c :: new.data))
  else String.mk (replaceScan old.data new.data s.data 0)

/-- Scanning loop of `strings.Split` for a non-empty `sep`: `cur` is the piece being
read (reversed), `skip` counts the runes of a matched separator still to be dropped. -/
def splitScan (sep : List Char) : List Char → Nat → List Char → List String
  | [], _, cur => [String.mk cur.reverse]
  | _ :: cs, skip + 1, cur => splitScan sep cs skip cur
  | c :: cs, 0, cur =>
    if sep.isPrefixOf (c :: cs) then String.mk cur.reverse :: splitScan sep cs (sep.length - 1) []
    else splitScan sep cs 0 (c :: cur)

/-- Go `strings.Split`: the pieces of `s` between occurrences of `sep`; an empty `sep`
splits after every rune. -/
def Split (s sep : String) : List String :=
  if sep.data = [] then s.data.map (fun c => String.mk [c])
  else splitScan sep.data s.data 0 []

/-! ## Errors -/

/-- A Go `error`, represented by the text returned by its `Error()` method. -/
structure GoError where
  Error : String
deriving DecidableEq, Repr

/-- The value `ErrPresetFilesAlreadyExists` of `cmd/preset.go`. -/
def ErrPresetFilesAlreadyExists : GoError :=
  ⟨"some preset files already exist"⟩

/-- The error `Execute` builds when there is no argument and no terminal. -/
def errNotTTY : GoError :=
  ⟨"the input device is not a TTY; for non-tty environments, please specify a preset argument"⟩

/-- The error `fmt.Errorf("Unknown preset %s", preset)`. -/
def errUnknownPreset (preset : String) : GoError :=
  ⟨"Unknown preset " ++ preset⟩

/-- The error `fmt.Errorf("Failed to write preset file %s: %v", name, err)`. -/
def errFailedToWrite (name : String) (err : GoError) : GoError :=
  ⟨"Failed to write preset file " ++ name ++ ": " ++ err.Error⟩

/-! ## yaml documents -/

/-- A `yaml.MapItem`: one key with its value. -/
structure MapItem (V : Type) where
  Key : V
  Value : V

/-- The Go values (`interface` values) that occur in a yaml document. -/
inductive GoValue where
  | null : GoValue
  | bool (b : Bool) : GoValue
  | int (i : Int) : GoValue
  | float (bits : Nat) : GoValue
  | str (s : String) : GoValue
  | seq (xs : List GoValue) : GoValue
  | mapSlice (items : List (MapItem GoValue)) : GoValue

/-- A `yaml.MapSlice`: an ordered list of items. -/
abbrev MapSlice := List (MapItem GoValue)

/-! ## Collaborators -/

/-- The package-level collaborators of `cmd/preset.go`. -/
structure Lib where
  /-- Table `unicode.To(unicode.LowerCase, r)` for runes above `MaxASCII`. -/
  lowerTable : Char → Char
  /-- Result of `presets.GetTemplates()`, indexed twice; a missing key gives `""`. -/
  GetTemplates : String → String → String
  /-- Outcome of `yaml.Unmarshal` of a text into a `yaml.MapSlice`. -/
  Unmarshal : String → Except GoError MapSlice
  /-- Outcome of `yaml.Marshal` of a `yaml.MapSlice`. -/
  Marshal : MapSlice → Except GoError String
  /-- Message of `shell.ErrPromptSelectInterrupted`. -/
  ErrPromptSelectInterrupted : GoError

/-- The interface `presets.Parser`, as far as `cmd/preset.go` uses it.
`GetPresetContents` returns a Go map; the list gives its entries in the order in which
the `range` loop of this run visits them. -/
structure Parser where
  Exists : String → Bool
  GetLanguages : List String
  GetPresets : String → List String
  GetPresetMetaValue : String → String → String
  LookUpFiles : String → List String
  GetPresetContents : String → List (String × String)
  WriteFile : String → String → String × Option GoError

/-- The interface `shell.PromptSelect`. -/
structure PromptSelect where
  Ask : String → List String → String × Option GoError

/-- The struct `KoolPresetFlags`. -/
structure KoolPresetFlags where
  Override : Bool

/-- The struct `KoolPreset`; `IsTerminal` is the answer of its terminal checker. -/
structure KoolPreset where
  Flags : KoolPresetFlags
  parser : Parser
  IsTerminal : Bool
  promptSelect : PromptSelect

/-! ## Traces -/

/-- One observable step of a run: a call to a collaborator, with its arguments. -/
inductive Event where
  | IsTerminal : Event
  | Ask (question : String) (options : List String) : Event
  | GetLanguages : Event
  | GetPresets (language : String) : Event
  | GetPresetMetaValue (preset key : String) : Event
  | Exists (preset : String) : Event
  | LookUpFiles (preset : String) : Event
  | GetPresetContents (preset : String) : Event
  | WriteFile (fileName fileContent : String) : Event
  | parseYml (data : String) : Event
  | Marshal (doc : MapSlice) : Event
  | Println (args : List String) : Event
  | Warning (args : List String) : Event
  | Success (args : List String) : Event
  | Error (err : GoError) : Event
  | SetWriter : Event
  | Exit (code : Nat) : Event

/-- A computation of Go code that may return early with an error: the events it
performed, in order, and its outcome. -/
structure Eff (α : Type) where
  trace : List Event
  result : Except GoError α

/-- A step that performs no call and yields `a`. -/
def Eff.pure {α : Type} (a : α) : Eff α :=
  ⟨[], .ok a⟩

/-- Sequencing: the second computation runs only if the first did not return an error. -/
def Eff.bind {α β : Type} (x : Eff α) (f : α → Eff β) : Eff β :=
  match x.result with
  | .error e => ⟨x.trace, .error e⟩
  | .ok a => ⟨x.trace ++ (f a).trace, (f a).result⟩

instance : Monad Eff where
  pure := Eff.pure
  bind := Eff.bind

/-- A call to a collaborator that cannot fail. -/
def call {α : Type} (e : Event) (a : α) : Eff α :=
  ⟨[e], .ok a⟩

/-- A call to a collaborator that returns a Go pair `(value, err)`. -/
def callErr {α : Type} (e : Event) (r : α × Option GoError) : Eff α :=
  ⟨[e], match r.2 with
        | some err => .error err
        | none => .ok r.1⟩

/-- The statement `err = e; return`. -/
def fail {α : Type} (e : GoError) : Eff α :=
  ⟨[], .error e⟩

/-- The `err` result of a Go function: `none` is `nil`. -/
def Eff.err {α : Type} (x : Eff α) : Option GoError :=
  match x.result with
  | .error e => some e
  | .ok _ => none

/-! ## The program -/

/-- The function `parseYml` of `cmd/preset.go`. -/
def parseYml (lib : Lib) (data : String) : Eff MapSlice :=
  ⟨[Event.parseYml data],
    match lib.Unmarshal data with
    | .error err => .error err
    | .ok parsed => .ok parsed⟩

/-- The expression computing `databaseKey` in `Execute` (line 123). -/
def databaseKey (lib : Lib) (database : String) : String :=
  ToLower lib.lowerTable (ReplaceAll (ReplaceAll database " " "") "." "") ++ ".yml"

/-- An `if _, err = f(); err != nil` block of the composition: the error of `x` is
replaced by `fmt.Errorf("Failed to write preset file %s: %v", fileName, err)`. -/
def wrapFailure {α : Type} (fileName : String) (x : Eff α) : Eff α :=
  ⟨x.trace,
    match x.result with
    | .error err => .error (errFailedToWrite fileName err)
    | .ok a => .ok a⟩

/-- Lines 115 to 138 of `Execute`: the services mapping of the composed
`docker-compose.yml`. -/
def composeServices (lib : Lib) (fileName database : String) : Eff MapSlice := do
  let dockerComposeServices : MapSlice := []
  let appTempl ← wrapFailure fileName (parseYml lib (lib.GetTemplates "app" "php74.yml"))
  let dockerComposeServices := dockerComposeServices ++ [⟨GoValue.str "app", GoValue.mapSlice appTempl⟩]
  let dockerComposeServices ←
    (if database ≠ "" then do
      let databaseTempl ← wrapFailure fileName
        (parseYml lib (lib.GetTemplates "database" (databaseKey lib database)))
      Eff.pure (dockerComposeServices ++ [⟨GoValue.str "database", GoValue.mapSlice databaseTempl⟩])
    else Eff.pure dockerComposeServices)
  let cacheTempl ← wrapFailure fileName (parseYml lib (lib.GetTemplates "cache" "redis6.yml"))
  Eff.pure (dockerComposeServices ++ [⟨GoValue.str "cache", GoValue.mapSlice cacheTempl⟩])

/-- Lines 111 to 149 of `Execute`: the text written for `docker-compose.yml` in a run
without a positional argument. -/
def composeDockerCompose (lib : Lib) (fileName database : String) : Eff String := do
  let dockerCompose : MapSlice := []
  let dockerCompose := dockerCompose ++ [⟨GoValue.str "version", GoValue.str "3.7"⟩]
  let dockerComposeServices ← composeServices lib fileName database
  let dockerCompose := dockerCompose ++ [⟨GoValue.str "services", GoValue.mapSlice dockerComposeServices⟩]
  let parsedBytes ← wrapFailure fileName
    (⟨[Event.Marshal dockerCompose], lib.Marshal dockerCompose⟩ : Eff String)
  Eff.pure parsedBytes

/-- The call `p.parser.WriteFile(fileName, fileContent)` with its error handling
(lines 152 to 155): the error wraps `fileError`, the first result of `WriteFile`. -/
def writeFile (p : KoolPreset) (fileName fileContent : String) : Eff Unit :=
  ⟨[Event.WriteFile fileName fileContent],
    match (p.parser.WriteFile fileName fileContent).2 with
    | some err => .error (errFailedToWrite (p.parser.WriteFile fileName fileContent).1 err)
    | none => .ok ()⟩

/-- The loop `for fileName, fileContent := range files` (lines 109 to 156). -/
def rangeFiles (lib : Lib) (p : KoolPreset) (database : String) (defaultCompose : Bool) :
    List (String × String) → Eff Unit
  | [] => Eff.pure ()
  | (fileName, fileContent) :: rest => do
    let fileContent ←
      (if fileName = "docker-compose.yml" ∧ defaultCompose = false then
        composeDockerCompose lib fileName database
      else Eff.pure fileContent)
    writeFile p fileName fileContent
    rangeFiles lib p database defaultCompose rest

/-- The loop `for _, fileName := range existingFiles` (lines 95 to 97). -/
def warnExisting : List String → Eff Unit
  | [] => Eff.pure ()
  | fileName :: rest => do
    call (Event.Warning ["Preset file ", fileName, " already exists."]) ()
    warnExisting rest

/-- Lines 93 to 103 of `Execute`: the conflict check. -/
def checkConflicts (p : KoolPreset) (preset : String) : Eff Unit :=
  if p.Flags.Override = false then do
    let existingFiles ← call (Event.LookUpFiles preset) (p.parser.LookUpFiles preset)
    warnExisting existingFiles
    if existingFiles.length > 0 then fail ErrPresetFilesAlreadyExists else Eff.pure ()
  else Eff.pure ()

/-- The call `p.promptSelect.Ask(question, options)` followed by
`if err != nil then return`. -/
def ask (p : KoolPreset) (question : String) (options : List String) : Eff String :=
  callErr (Event.Ask question options) (p.promptSelect.Ask question options)

/-- Lines 58 to 84 of `Execute`: the values of `preset`, `database` and
`defaultCompose` with which the run goes on. -/
def selectPreset (p : KoolPreset) (args : List String) : Eff (String × String × Bool) :=
  match args with
  | [] => do
    let isTerminal ← call Event.IsTerminal p.IsTerminal
    if isTerminal = false then fail errNotTTY
    else do
      let languages ← call Event.GetLanguages p.parser.GetLanguages
      let language ← ask p "What language do you want to use" languages
      let presets ← call (Event.GetPresets language) (p.parser.GetPresets language)
      let preset ← ask p "What preset do you want to use" presets
      let askDatabase ← call (Event.GetPresetMetaValue preset "ask_database")
        (p.parser.GetPresetMetaValue preset "ask_database")
      if askDatabase ≠ "" then do
        let dbOptions := Split askDatabase ","
        let database ← ask p "What database do you want to use" dbOptions
        Eff.pure (preset, database, false)
      else Eff.pure (preset, "", false)
  | arg0 :: _ => Eff.pure (arg0, "", true)

/-- Lines 86 to 159 of `Execute`: validation, conflict check, writing, success. -/
def materialize (lib : Lib) (p : KoolPreset) (preset database : String)
    (defaultCompose : Bool) : Eff Unit := do
  let known ← call (Event.Exists preset) (p.parser.Exists preset)
  if known = false then fail (errUnknownPreset preset)
  else do
    call (Event.Println ["Preset", preset, "is initializing!"]) ()
    checkConflicts p preset
    let files ← call (Event.GetPresetContents preset) (p.parser.GetPresetContents preset)
    rangeFiles lib p database defaultCompose files
    call (Event.Success ["Preset ", preset, " initialized!"]) ()

/-- The method `KoolPreset.Execute`. -/
def Execute (lib : Lib) (p : KoolPreset) (args : List String) : Eff Unit := do
  let sel ← selectPreset p args
  materialize lib p sel.1 sel.2.1 sel.2.2

/-- The `Run` function of the command built by `NewPresetCommand`, after `Execute`
returned `err`. -/
def handleResult (lib : Lib) (err : Option GoError) : List Event :=
  match err with
  | some err =>
    if err.Error = ErrPresetFilesAlreadyExists.Error then
      [Event.Warning ["Some preset files already exist. In case you wanna override them, use --override."],
        Event.Exit 2]
    else if err.Error = lib.ErrPromptSelectInterrupted.Error then
      [Event.Warning ["Operation Cancelled"], Event.Exit 0]
    else [Event.Error err, Event.Exit 1]
  | none => []

/-- The `Run` function of the command built by `NewPresetCommand`. -/
def NewPresetCommand (lib : Lib) (p : KoolPreset) (args : List String) : List Event :=
  [Event.SetWriter] ++ (Execute lib p args).trace ++ handleResult lib (Execute lib p args).err

/-! ## Definitions used in the statements -/

/-- Spec wording of the lookup key: the name with all spaces and all periods removed,
then lower-cased. -/
def specLookupKey (lib : Lib) (name : String) : String :=
  String.mk ((name.data.filter (fun c => decide (c ≠ ' ' ∧ c ≠ '.'))).map (unicodeToLower lib.lowerTable))

/-- The events a composition can perform. -/
def Event.isCompose (ev : Event) : Prop :=
  (∃ d, ev = Event.parseYml d) ∨ (∃ doc, ev = Event.Marshal doc)

/-- The `WriteFile` calls of a trace, in order: the pairs (file name, content). -/
def writesOf : List Event → List (String × String)
  | [] => []
  | Event.WriteFile n c :: rest => (n, c) :: writesOf rest
  | _ :: rest => writesOf rest

/-- The warnings of a trace, in order: the arguments of each `Warning` call. -/
def warningsOf : List Event → List (List String)
  | [] => []
  | Event.Warning a :: rest => a :: warningsOf rest
  | _ :: rest => warningsOf rest

/-- The events of the selection of the preset. -/
def Event.isSelection (ev : Event) : Prop :=
  ev = Event.IsTerminal ∨ ev = Event.GetLanguages ∨ (∃ q o, ev = Event.Ask q o) ∨
    (∃ l, ev = Event.GetPresets l) ∨ (∃ x k, ev = Event.GetPresetMetaValue x k)

/-- The events that come before the loop over the files. -/
def Event.isEarly (ev : Event) : Prop :=
  ev.isSelection ∨ (∃ x, ev = Event.Exists x) ∨ (∃ a, ev = Event.Println a) ∨
    (∃ x, ev = Event.LookUpFiles x) ∨ (∃ a, ev = Event.Warning a) ∨
    (∃ x, ev = Event.GetPresetContents x)

/-- The events of the loop over the files. -/
def Event.isLoop (ev : Event) : Prop :=
  (∃ n c, ev = Event.WriteFile n c) ∨ ev.isCompose

/-! ### Concrete collaborators for the examples -/

/-- A template store and yaml library in which the application, cache and `mysql`
templates parse and every other text is rejected. -/
def demoLib : Lib where
  lowerTable := fun c => c
  GetTemplates := fun category name => category ++ "/" ++ name
  Unmarshal := fun text =>
    if text = "app/php74.yml" then .ok [⟨GoValue.str "image", GoValue.str "kooldev/php:7.4"⟩]
    else if text = "cache/redis6.yml" then .ok [⟨GoValue.str "image", GoValue.str "redis:6"⟩]
    else if text = "database/mysql.yml" then .ok [⟨GoValue.str "image", GoValue.str "mysql:8"⟩]
    else .error ⟨"yaml: unmarshal errors"⟩
  Marshal := fun _ => .ok "composed"
  ErrPromptSelectInterrupted := ⟨"interrupt"⟩

/-- A yaml library that rejects the application template only. -/
def appBrokenLib : Lib :=
  { demoLib with
    Unmarshal := fun text =>
      if text = "app/php74.yml" then .error ⟨"yaml: unmarshal errors"⟩ else .ok [] }

/-- A yaml library that rejects the cache template only. -/
def cacheBrokenLib : Lib :=
  { demoLib with
    Unmarshal := fun text =>
      if text = "cache/redis6.yml" then .error ⟨"yaml: unmarshal errors"⟩ else .ok [] }

/-- A registry with the single preset `laravel`, which offers two databases and
declares two files; no file exists yet and every write succeeds. -/
def demoParser : Parser where
  Exists := fun preset => decide (preset = "laravel")
  GetLanguages := ["php"]
  GetPresets := fun _ => ["laravel"]
  GetPresetMetaValue := fun _ key => if key = "ask_database" then "My SQL,PostgreSQL 13.0" else ""
  LookUpFiles := fun _ => []
  GetPresetContents := fun _ => [("kool.yml", "scripts"), ("docker-compose.yml", "static")]
  WriteFile := fun _ _ => ("", none)

/-- The prompt of a user who always picks the first option. -/
def firstOption : PromptSelect where
  Ask := fun _ options => (options.headD "", none)

/-- A command on a terminal, without override. -/
def demoPreset : KoolPreset where
  Flags := ⟨false⟩
  parser := demoParser
  IsTerminal := true
  promptSelect := firstOption

/-- The same command when writing `docker-compose.yml` fails. -/
def diskFullPreset : KoolPreset :=
  { demoPreset with
    parser := { demoParser with
      WriteFile := fun name _ =>
        if name = "docker-compose.yml" then (name, some ⟨"disk full"⟩) else ("", none) } }

/-- The same command when writing `docker-compose.yml` fails and `WriteFile` reports
no file name with the error. -/
def unnamedFailurePreset : KoolPreset :=
  { demoPreset with
    parser := { demoParser with
      WriteFile := fun name _ =>
        if name = "docker-compose.yml" then ("", some ⟨"disk full"⟩) else ("", none) } }

/-- The same command when `kool.yml` already exists. -/
def conflictPreset : KoolPreset :=
  { demoPreset with parser := { demoParser with LookUpFiles := fun _ => ["kool.yml"] } }

/-- The same command without a terminal. -/
def noTerminalPreset : KoolPreset :=
  { demoPreset with IsTerminal := false }

/-! ## Lemmas -/

theorem replaceScan_single (c : Char) (s : List Char) :
    replaceScan [c] [] s 0 = s.filter (fun x => decide (x ≠ c)) := by
  induction s with
  | nil => rfl
  | cons x xs ih =>
    by_cases h : x = c
    · subst h
      simp [replaceScan, List.isPrefixOf, ih]
    · have h' : (c == x) = false := by
        simp [beq_iff_eq]
        exact fun h2 => h h2.symm
      simp [replaceScan, List.isPrefixOf, ih, h, h']

theorem ReplaceAll_single (s : String) (c : Char) :
    ReplaceAll s (String.mk [c]) "" = String.mk (s.data.filter (fun x => decide (x ≠ c))) := by
  simp [ReplaceAll, replaceScan_single]

theorem databaseKey_eq (lib : Lib) (database : String) :
    databaseKey lib database = specLookupKey lib database ++ ".yml" := by
  have h1 : (" " : String) = String.mk [' '] := rfl
  have h2 : ("." : String) = String.mk ['.'] := rfl
  unfold databaseKey specLookupKey ToLower
  rw [h1, h2, ReplaceAll_single, ReplaceAll_single]
  simp [List.filter_filter, Bool.and_comm]

/-! ### Sequencing -/

@[simp] theorem bind_def {α β : Type} (x : Eff α) (f : α → Eff β) : (x >>= f) = Eff.bind x f := rfl

@[simp] theorem pure_def {α : Type} (a : α) : (Pure.pure a : Eff α) = Eff.pure a := rfl

theorem Eff.bind_ok {α β : Type} (x : Eff α) (f : α → Eff β) (a : α) (h : x.result = .ok a) :
    Eff.bind x f = ⟨x.trace ++ (f a).trace, (f a).result⟩ := by
  simp [Eff.bind, h]

theorem Eff.bind_error {α β : Type} (x : Eff α) (f : α → Eff β) (e : GoError)
    (h : x.result = .error e) : Eff.bind x f = ⟨x.trace, .error e⟩ := by
  simp [Eff.bind, h]

@[simp] theorem Eff.bind_mk_ok {α β : Type} (t : List Event) (a : α) (f : α → Eff β) :
    Eff.bind ⟨t, .ok a⟩ f = ⟨t ++ (f a).trace, (f a).result⟩ := rfl

@[simp] theorem Eff.bind_mk_error {α β : Type} (t : List Event) (e : GoError) (f : α → Eff β) :
    Eff.bind ⟨t, .error e⟩ f = ⟨t, .error e⟩ := rfl

@[simp] theorem Eff.bind_pure {α β : Type} (a : α) (f : α → Eff β) :
    Eff.bind (Eff.pure a) f = f a := by
  simp [Eff.pure]

@[simp] theorem Eff.err_mk_ok {α : Type} (t : List Event) (a : α) :
    Eff.err (⟨t, .ok a⟩ : Eff α) = none := rfl

@[simp] theorem Eff.err_mk_error {α : Type} (t : List Event) (e : GoError) :
    Eff.err (⟨t, .error e⟩ : Eff α) = some e := rfl

theorem Eff.err_eq_some {α : Type} (x : Eff α) (e : GoError) :
    x.err = some e ↔ x.result = .error e := by
  cases x with
  | mk t r => cases r <;> simp [Eff.err]

theorem Eff.err_eq_none {α : Type} (x : Eff α) :
    x.err = none ↔ ∃ a, x.result = .ok a := by
  cases x with
  | mk t r => cases r <;> simp [Eff.err]

/-! ### The composition -/

theorem parseYml_trace (lib : Lib) (data : String) :
    (parseYml lib data).trace = [Event.parseYml data] := rfl

theorem wrapFailure_parseYml_ok (lib : Lib) (fileName data : String) (m : MapSlice)
    (h : lib.Unmarshal data = .ok m) :
    wrapFailure fileName (parseYml lib data) = ⟨[Event.parseYml data], .ok m⟩ := by
  simp [wrapFailure, parseYml, h]

theorem wrapFailure_parseYml_error (lib : Lib) (fileName data : String) (e : GoError)
    (h : lib.Unmarshal data = .error e) :
    wrapFailure fileName (parseYml lib data) =
      ⟨[Event.parseYml data], .error (errFailedToWrite fileName e)⟩ := by
  simp [wrapFailure, parseYml, h]

/-- The services mapping built when every template parses. -/
theorem composeServices_ok (lib : Lib) (fileName database : String) (A D C : MapSlice)
    (hA : lib.Unmarshal (lib.GetTemplates "app" "php74.yml") = .ok A)
    (hD : database ≠ "" →
      lib.Unmarshal (lib.GetTemplates "database" (databaseKey lib database)) = .ok D)
    (hC : lib.Unmarshal (lib.GetTemplates "cache" "redis6.yml") = .ok C) :
    composeServices lib fileName database =
      ⟨[Event.parseYml (lib.GetTemplates "app" "php74.yml")] ++
        (if database = "" then []
          else [Event.parseYml (lib.GetTemplates "database" (databaseKey lib database))]) ++
        [Event.parseYml (lib.GetTemplates "cache" "redis6.yml")],
       .ok ([⟨GoValue.str "app", GoValue.mapSlice A⟩] ++
        (if database = "" then [] else [⟨GoValue.str "database", GoValue.mapSlice D⟩]) ++
        [⟨GoValue.str "cache", GoValue.mapSlice C⟩])⟩ := by
  by_cases hdb : database = ""
  · simp [composeServices, wrapFailure_parseYml_ok _ _ _ _ hA, wrapFailure_parseYml_ok _ _ _ _ hC,
      hdb, Eff.pure]
  · simp [composeServices, wrapFailure_parseYml_ok _ _ _ _ hA, wrapFailure_parseYml_ok _ _ _ _ hC,
      wrapFailure_parseYml_ok _ _ _ _ (hD hdb), hdb, Eff.pure]

theorem composeServices_app_error (lib : Lib) (fileName database : String) (e : GoError)
    (hA : lib.Unmarshal (lib.GetTemplates "app" "php74.yml") = .error e) :
    composeServices lib fileName database =
      ⟨[Event.parseYml (lib.GetTemplates "app" "php74.yml")],
        .error (errFailedToWrite fileName e)⟩ := by
  simp [composeServices, wrapFailure_parseYml_error _ _ _ _ hA]

theorem composeServices_database_error (lib : Lib) (fileName database : String) (A : MapSlice)
    (e : GoError) (hdb : database ≠ "")
    (hA : lib.Unmarshal (lib.GetTemplates "app" "php74.yml") = .ok A)
    (hD : lib.Unmarshal (lib.GetTemplates "database" (databaseKey lib database)) = .error e) :
    composeServices lib fileName database =
      ⟨[Event.parseYml (lib.GetTemplates "app" "php74.yml"),
        Event.parseYml (lib.GetTemplates "database" (databaseKey lib database))],
        .error (errFailedToWrite fileName e)⟩ := by
  simp [composeServices, wrapFailure_parseYml_ok _ _ _ _ hA,
    wrapFailure_parseYml_error _ _ _ _ hD, hdb]

theorem composeServices_cache_error (lib : Lib) (fileName database : String) (A D : MapSlice)
    (e : GoError)
    (hA : lib.Unmarshal (lib.GetTemplates "app" "php74.yml") = .ok A)
    (hD : database ≠ "" →
      lib.Unmarshal (lib.GetTemplates "database" (databaseKey lib database)) = .ok D)
    (hC : lib.Unmarshal (lib.GetTemplates "cache" "redis6.yml") = .error e) :
    composeServices lib fileName database =
      ⟨[Event.parseYml (lib.GetTemplates "app" "php74.yml")] ++
        (if database = "" then []
          else [Event.parseYml (lib.GetTemplates "database" (databaseKey lib database))]) ++
        [Event.parseYml (lib.GetTemplates "cache" "redis6.yml")],
        .error (errFailedToWrite fileName e)⟩ := by
  by_cases hdb : database = ""
  · simp [composeServices, wrapFailure_parseYml_ok _ _ _ _ hA,
      wrapFailure_parseYml_error _ _ _ _ hC, hdb, Eff.pure]
  · simp [composeServices, wrapFailure_parseYml_ok _ _ _ _ hA,
      wrapFailure_parseYml_error _ _ _ _ hC, wrapFailure_parseYml_ok _ _ _ _ (hD hdb), hdb,
      Eff.pure]

/-- The document handed to `yaml.Marshal`: the version marker, then the services. -/
theorem composeDockerCompose_ok (lib : Lib) (fileName database : String) (S : MapSlice)
    (h : (composeServices lib fileName database).result = .ok S) :
    composeDockerCompose lib fileName database =
      ⟨(composeServices lib fileName database).trace ++
        [Event.Marshal [⟨GoValue.str "version", GoValue.str "3.7"⟩,
          ⟨GoValue.str "services", GoValue.mapSlice S⟩]],
        match lib.Marshal [⟨GoValue.str "version", GoValue.str "3.7"⟩,
          ⟨GoValue.str "services", GoValue.mapSlice S⟩] with
        | .error err => .error (errFailedToWrite fileName err)
        | .ok text => .ok text⟩ := by
  simp only [composeDockerCompose, bind_def, Eff.bind_ok _ _ S h]
  cases hM : lib.Marshal [⟨GoValue.str "version", GoValue.str "3.7"⟩,
          ⟨GoValue.str "services", GoValue.mapSlice S⟩] <;>
    simp [wrapFailure, hM, Eff.pure, Eff.bind]

theorem composeDockerCompose_error (lib : Lib) (fileName database : String) (e : GoError)
    (h : (composeServices lib fileName database).result = .error e) :
    composeDockerCompose lib fileName database =
      ⟨(composeServices lib fileName database).trace, .error e⟩ := by
  simp only [composeDockerCompose, bind_def, Eff.bind_error _ _ e h]

/-- A template that fails to parse ends the composition at once, with the wrapped
error, and every parse before it succeeded with another text. -/
theorem composeServices_parse_fail (lib : Lib) (fileName database data : String) (e : GoError)
    (hmem : Event.parseYml data ∈ (composeServices lib fileName database).trace)
    (hfail : lib.Unmarshal data = .error e) :
    (composeServices lib fileName database).result = .error (errFailedToWrite fileName e) ∧
    ∃ before, (composeServices lib fileName database).trace = before ++ [Event.parseYml data] ∧
      ∀ ev ∈ before, ∃ d, ev = Event.parseYml d := by
  rcases hA : lib.Unmarshal (lib.GetTemplates "app" "php74.yml") with eA | A
  · rw [composeServices_app_error lib fileName database eA hA] at hmem ⊢
    simp at hmem
    subst hmem
    rw [hA] at hfail
    cases hfail
    exact ⟨rfl, [], rfl, by simp⟩
  · by_cases hdb : database = ""
    · rcases hC : lib.Unmarshal (lib.GetTemplates "cache" "redis6.yml") with eC | C
      · rw [composeServices_cache_error lib fileName database A [] eC hA
          (fun h => absurd hdb h) hC] at hmem ⊢
        simp [hdb] at hmem ⊢
        rcases hmem with h | h
        · subst h; rw [hA] at hfail; cases hfail
        · subst h
          rw [hC] at hfail
          cases hfail
          exact ⟨rfl, [Event.parseYml (lib.GetTemplates "app" "php74.yml")], rfl, by simp⟩
      · rw [composeServices_ok lib fileName database A [] C hA (fun h => absurd hdb h) hC] at hmem
        simp [hdb] at hmem
        rcases hmem with h | h
        · subst h; rw [hA] at hfail; cases hfail
        · subst h; rw [hC] at hfail; cases hfail
    · rcases hD : lib.Unmarshal (lib.GetTemplates "database" (databaseKey lib database))
        with eD | D
      · rw [composeServices_database_error lib fileName database A eD hdb hA hD] at hmem ⊢
        simp at hmem ⊢
        rcases hmem with h | h
        · subst h; rw [hA] at hfail; cases hfail
        · subst h
          rw [hD] at hfail
          cases hfail
          exact ⟨rfl, [Event.parseYml (lib.GetTemplates "app" "php74.yml")], rfl, by simp⟩
      · rcases hC : lib.Unmarshal (lib.GetTemplates "cache" "redis6.yml") with eC | C
        · rw [composeServices_cache_error lib fileName database A D eC hA (fun _ => hD) hC]
            at hmem ⊢
          simp [hdb] at hmem ⊢
          rcases hmem with h | h | h
          · subst h; rw [hA] at hfail; cases hfail
          · subst h; rw [hD] at hfail; cases hfail
          · subst h
            rw [hC] at hfail
            cases hfail
            exact ⟨rfl, [Event.parseYml (lib.GetTemplates "app" "php74.yml"),
              Event.parseYml (lib.GetTemplates "database" (databaseKey lib database))], rfl,
              by simp⟩
        · rw [composeServices_ok lib fileName database A D C hA (fun _ => hD) hC] at hmem
          simp [hdb] at hmem
          rcases hmem with h | h | h
          · subst h; rw [hA] at hfail; cases hfail
          · subst h; rw [hD] at hfail; cases hfail
          · subst h; rw [hC] at hfail; cases hfail

/-- The events of the services composition are parses. -/
theorem composeServices_events (lib : Lib) (fileName database : String) (ev : Event)
    (h : ev ∈ (composeServices lib fileName database).trace) : ∃ d, ev = Event.parseYml d := by
  revert h
  by_cases hdb : database = "" <;>
  rcases hA : lib.Unmarshal (lib.GetTemplates "app" "php74.yml") with eA | A <;>
  rcases hC : lib.Unmarshal (lib.GetTemplates "cache" "redis6.yml") with eC | C <;>
  rcases hD : lib.Unmarshal (lib.GetTemplates "database" (databaseKey lib database)) with eD | D <;>
  simp [composeServices, wrapFailure, parseYml, hA, hC, hD, hdb, Eff.pure, Eff.bind] <;>
  aesop

/-! ### The loop over the files -/

theorem composeDockerCompose_events (lib : Lib) (fileName database : String) (ev : Event)
    (h : ev ∈ (composeDockerCompose lib fileName database).trace) : ev.isCompose := by
  rcases hS : (composeServices lib fileName database).result with e | S
  · rw [composeDockerCompose_error lib fileName database e hS] at h
    exact Or.inl (composeServices_events lib fileName database ev h)
  · rw [composeDockerCompose_ok lib fileName database S hS] at h
    simp at h
    rcases h with h | h
    · exact Or.inl (composeServices_events lib fileName database ev h)
    · exact Or.inr ⟨_, h⟩

/-- A failing parse ends the composition of the whole file with the wrapped error. -/
theorem composeDockerCompose_parse_fail (lib : Lib) (fileName database data : String)
    (e : GoError)
    (hmem : Event.parseYml data ∈ (composeDockerCompose lib fileName database).trace)
    (hfail : lib.Unmarshal data = .error e) :
    ∃ before, composeDockerCompose lib fileName database =
        ⟨before ++ [Event.parseYml data], .error (errFailedToWrite fileName e)⟩ ∧
      ∀ ev ∈ before, ∃ d, ev = Event.parseYml d := by
  have hmemS : Event.parseYml data ∈ (composeServices lib fileName database).trace := by
    rcases hS : (composeServices lib fileName database).result with e0 | S
    · rw [composeDockerCompose_error lib fileName database e0 hS] at hmem
      exact hmem
    · rw [composeDockerCompose_ok lib fileName database S hS] at hmem
      simpa using hmem
  obtain ⟨hres, before, htr, hbefore⟩ :=
    composeServices_parse_fail lib fileName database data e hmemS hfail
  refine ⟨before, ?_, hbefore⟩
  rw [composeDockerCompose_error lib fileName database _ hres, htr]

theorem writeFile_ok (p : KoolPreset) (n c : String) (h : (p.parser.WriteFile n c).2 = none) :
    writeFile p n c = ⟨[Event.WriteFile n c], .ok ()⟩ := by
  simp [writeFile, h]

theorem writeFile_error (p : KoolPreset) (n c : String) (e : GoError)
    (h : (p.parser.WriteFile n c).2 = some e) :
    writeFile p n c =
      ⟨[Event.WriteFile n c], .error (errFailedToWrite (p.parser.WriteFile n c).1 e)⟩ := by
  simp [writeFile, h]

theorem rangeFiles_cons (lib : Lib) (p : KoolPreset) (database : String) (dc : Bool)
    (n c : String) (rest : List (String × String)) :
    rangeFiles lib p database dc ((n, c) :: rest) =
      Eff.bind (if n = "docker-compose.yml" ∧ dc = false then
          composeDockerCompose lib n database else Eff.pure c)
        (fun content => Eff.bind (writeFile p n content)
          (fun _ => rangeFiles lib p database dc rest)) := rfl

/-- One turn of the loop for a file whose content is taken verbatim. -/
theorem rangeFiles_cons_plain (lib : Lib) (p : KoolPreset) (database : String) (dc : Bool)
    (n c : String) (rest : List (String × String))
    (h : ¬ (n = "docker-compose.yml" ∧ dc = false)) :
    rangeFiles lib p database dc ((n, c) :: rest) =
      Eff.bind (writeFile p n c) (fun _ => rangeFiles lib p database dc rest) := by
  rw [rangeFiles_cons, if_neg h, Eff.bind_pure]

/-- One turn of the loop for the composed file. -/
theorem rangeFiles_cons_compose (lib : Lib) (p : KoolPreset) (database : String)
    (c : String) (rest : List (String × String)) :
    rangeFiles lib p database false (("docker-compose.yml", c) :: rest) =
      Eff.bind (composeDockerCompose lib "docker-compose.yml" database)
        (fun content => Eff.bind (writeFile p "docker-compose.yml" content)
          (fun _ => rangeFiles lib p database false rest)) := by
  rw [rangeFiles_cons]
  simp

/-- Every event of the loop is a write or an event of a composition. -/
theorem rangeFiles_events (lib : Lib) (p : KoolPreset) (database : String) (dc : Bool)
    (files : List (String × String)) (ev : Event)
    (h : ev ∈ (rangeFiles lib p database dc files).trace) :
    (∃ n c, ev = Event.WriteFile n c) ∨ ev.isCompose := by
  induction files with
  | nil => simp [rangeFiles, Eff.pure] at h
  | cons f rest ih =>
    obtain ⟨n, c⟩ := f
    by_cases hc : n = "docker-compose.yml" ∧ dc = false
    · obtain ⟨hn, hdc⟩ := hc
      subst hn hdc
      rw [rangeFiles_cons_compose] at h
      rcases hX : (composeDockerCompose lib "docker-compose.yml" database).result with e | content
      · rw [Eff.bind_error _ _ e hX] at h
        exact Or.inr (composeDockerCompose_events _ _ _ _ h)
      · rw [Eff.bind_ok _ _ content hX] at h
        simp only [List.mem_append] at h
        rcases h with h | h
        · exact Or.inr (composeDockerCompose_events _ _ _ _ h)
        · rcases hW : (p.parser.WriteFile "docker-compose.yml" content).2 with _ | e
          · rw [writeFile_ok p _ _ hW] at h
            simp at h
            rcases h with h | h
            · exact Or.inl ⟨_, _, h⟩
            · exact ih h
          · rw [writeFile_error p _ _ e hW] at h
            simp at h
            exact Or.inl ⟨_, _, h⟩
    · rw [rangeFiles_cons_plain _ _ _ _ _ _ _ hc] at h
      rcases hW : (p.parser.WriteFile n c).2 with _ | e
      · rw [writeFile_ok p _ _ hW] at h
        simp at h
        rcases h with h | h
        · exact Or.inl ⟨_, _, h⟩
        · exact ih h
      · rw [writeFile_error p _ _ e hW] at h
        simp at h
        exact Or.inl ⟨_, _, h⟩

/-- The compositions of a run all are the composition of `docker-compose.yml` with the
selected database, and there is none in a run with a positional argument. -/
theorem rangeFiles_compose_mem (lib : Lib) (p : KoolPreset) (database : String) (dc : Bool)
    (files : List (String × String)) (ev : Event)
    (h : ev ∈ (rangeFiles lib p database dc files).trace) (hev : ev.isCompose) :
    dc = false ∧ ev ∈ (composeDockerCompose lib "docker-compose.yml" database).trace := by
  have hnw : ∀ n c, ev ≠ Event.WriteFile n c := by
    intro n c heq
    rcases hev with ⟨d, hd⟩ | ⟨d, hd⟩ <;> rw [hd] at heq <;> cases heq
  induction files with
  | nil => simp [rangeFiles, Eff.pure] at h
  | cons f rest ih =>
    obtain ⟨n, c⟩ := f
    by_cases hc : n = "docker-compose.yml" ∧ dc = false
    · obtain ⟨hn, hdc⟩ := hc
      subst hn hdc
      rw [rangeFiles_cons_compose] at h
      rcases hX : (composeDockerCompose lib "docker-compose.yml" database).result with e | content
      · rw [Eff.bind_error _ _ e hX] at h
        exact ⟨rfl, h⟩
      · rw [Eff.bind_ok _ _ content hX] at h
        simp only [List.mem_append] at h
        rcases h with h | h
        · exact ⟨rfl, h⟩
        · rcases hW : (p.parser.WriteFile "docker-compose.yml" content).2 with _ | e
          · rw [writeFile_ok p _ _ hW] at h
            simp at h
            rcases h with h | h
            · exact absurd h (hnw _ _)
            · exact ih h
          · rw [writeFile_error p _ _ e hW] at h
            simp at h
            exact absurd h (hnw _ _)
    · rw [rangeFiles_cons_plain _ _ _ _ _ _ _ hc] at h
      rcases hW : (p.parser.WriteFile n c).2 with _ | e
      · rw [writeFile_ok p _ _ hW] at h
        simp at h
        rcases h with h | h
        · exact absurd h (hnw _ _)
        · exact ih h
      · rw [writeFile_error p _ _ e hW] at h
        simp at h
        exact absurd h (hnw _ _)

theorem Event.isCompose_not_write {ev : Event} (h : ev.isCompose) (n c : String) :
    ev ≠ Event.WriteFile n c := by
  intro heq
  rcases h with ⟨d, hd⟩ | ⟨d, hd⟩ <;> rw [hd] at heq <;> cases heq

/-- A write that fails is the last event of the loop, which then returns the wrapped
error; every write before it succeeded. -/
theorem rangeFiles_write_fail (lib : Lib) (p : KoolPreset) (database : String) (dc : Bool)
    (files : List (String × String)) (n c : String) (e : GoError)
    (hmem : Event.WriteFile n c ∈ (rangeFiles lib p database dc files).trace)
    (hfail : (p.parser.WriteFile n c).2 = some e) :
    ∃ before, rangeFiles lib p database dc files =
        ⟨before ++ [Event.WriteFile n c],
          .error (errFailedToWrite (p.parser.WriteFile n c).1 e)⟩ ∧
      ∀ n1 c1, Event.WriteFile n1 c1 ∈ before → (p.parser.WriteFile n1 c1).2 = none := by
  induction files with
  | nil => simp [rangeFiles, Eff.pure] at hmem
  | cons f rest ih =>
    obtain ⟨n0, c0⟩ := f
    have key : ∀ (X : Eff String), (∀ ev ∈ X.trace, ev.isCompose) →
        Event.WriteFile n c ∈ (Eff.bind X (fun content => Eff.bind (writeFile p n0 content)
          (fun _ => rangeFiles lib p database dc rest))).trace →
        ∃ before, Eff.bind X (fun content => Eff.bind (writeFile p n0 content)
          (fun _ => rangeFiles lib p database dc rest)) =
          ⟨before ++ [Event.WriteFile n c],
            .error (errFailedToWrite (p.parser.WriteFile n c).1 e)⟩ ∧
        ∀ n1 c1, Event.WriteFile n1 c1 ∈ before → (p.parser.WriteFile n1 c1).2 = none := by
      intro X hX h
      have hXw : ∀ n1 c1, Event.WriteFile n1 c1 ∉ X.trace :=
        fun n1 c1 hm => Event.isCompose_not_write (hX _ hm) n1 c1 rfl
      rcases hR : X.result with e0 | content
      · rw [Eff.bind_error _ _ e0 hR] at h
        exact absurd h (hXw _ _)
      · rw [Eff.bind_ok _ _ content hR] at h ⊢
        simp only [List.mem_append] at h
        rcases h with h | h
        · exact absurd h (hXw _ _)
        · rcases hW : (p.parser.WriteFile n0 content).2 with _ | e1
          · rw [writeFile_ok p _ _ hW] at h ⊢
            simp at h
            rcases h with h | h
            · obtain ⟨h1, h2⟩ := h
              subst h1 h2
              rw [hW] at hfail
              cases hfail
            · obtain ⟨before, heq, hbefore⟩ := ih h
              refine ⟨X.trace ++ Event.WriteFile n0 content :: before, ?_, ?_⟩
              · simp [heq]
              · intro n1 c1 hm
                simp at hm
                rcases hm with hm | hm | hm
                · exact absurd hm (hXw _ _)
                · obtain ⟨h1, h2⟩ := hm
                  subst h1 h2
                  exact hW
                · exact hbefore _ _ hm
          · rw [writeFile_error p _ _ e1 hW] at h ⊢
            simp at h
            obtain ⟨h1, h2⟩ := h
            subst h1 h2
            rw [hW] at hfail
            cases hfail
            refine ⟨X.trace, by simp, ?_⟩
            intro n1 c1 hm
            exact absurd hm (hXw _ _)
    rw [rangeFiles_cons] at hmem ⊢
    refine key _ ?_ hmem
    intro ev hev
    split at hev
    · exact composeDockerCompose_events _ _ _ _ hev
    · simp [Eff.pure] at hev

/-- A template that fails to parse ends the loop: the error names the composed file,
nothing follows the failed parse, and `docker-compose.yml` is not written. -/
theorem rangeFiles_parse_fail (lib : Lib) (p : KoolPreset) (database : String) (dc : Bool)
    (files : List (String × String)) (data : String) (e : GoError)
    (hmem : Event.parseYml data ∈ (rangeFiles lib p database dc files).trace)
    (hfail : lib.Unmarshal data = .error e) :
    ∃ before, rangeFiles lib p database dc files =
        ⟨before ++ [Event.parseYml data],
          .error (errFailedToWrite "docker-compose.yml" e)⟩ ∧
      ∀ c, Event.WriteFile "docker-compose.yml" c ∉ before := by
  obtain ⟨hdc, hcm⟩ := rangeFiles_compose_mem lib p database dc files _ hmem (Or.inl ⟨_, rfl⟩)
  subst hdc
  obtain ⟨T, hT, hTev⟩ :=
    composeDockerCompose_parse_fail lib "docker-compose.yml" database data e hcm hfail
  have hTw : ∀ n c, Event.WriteFile n c ∉ T := by
    intro n c hm
    obtain ⟨d, hd⟩ := hTev _ hm
    cases hd
  have hdw : ∀ n c, Event.parseYml data ≠ Event.WriteFile n c := by
    intro n c h
    cases h
  induction files with
  | nil => simp [rangeFiles, Eff.pure] at hmem
  | cons f rest ih =>
    obtain ⟨n0, c0⟩ := f
    by_cases hn : n0 = "docker-compose.yml"
    · subst hn
      rw [rangeFiles_cons_compose, hT]
      exact ⟨T, by simp, fun c => hTw _ c⟩
    · have hc : ¬ (n0 = "docker-compose.yml" ∧ false = false) := fun h => hn h.1
      rw [rangeFiles_cons_plain _ _ _ _ _ _ _ hc] at hmem ⊢
      rcases hW : (p.parser.WriteFile n0 c0).2 with _ | e1
      · rw [writeFile_ok p _ _ hW] at hmem ⊢
        simp at hmem
        obtain ⟨before, heq, hbefore⟩ := ih hmem
        refine ⟨Event.WriteFile n0 c0 :: before, by simp [heq], ?_⟩
        intro c hm
        simp at hm
        rcases hm with hm | hm
        · exact hn hm.1.symm
        · exact hbefore c hm
      · rw [writeFile_error p _ _ e1 hW] at hmem
        simp at hmem

theorem writesOf_append (t1 t2 : List Event) :
    writesOf (t1 ++ t2) = writesOf t1 ++ writesOf t2 := by
  induction t1 with
  | nil => rfl
  | cons ev rest ih => cases ev <;> simp [writesOf, ih]

theorem writesOf_eq_nil (t : List Event) (h : ∀ n c, Event.WriteFile n c ∉ t) :
    writesOf t = [] := by
  induction t with
  | nil => rfl
  | cons ev rest ih =>
    have hrest : ∀ n c, Event.WriteFile n c ∉ rest :=
      fun n c hm => h n c (List.mem_cons_of_mem _ hm)
    cases ev <;> simp [writesOf, ih hrest]
    exact h _ _ (List.mem_cons_self _ _)

theorem mem_writesOf (t : List Event) (n c : String) :
    (n, c) ∈ writesOf t ↔ Event.WriteFile n c ∈ t := by
  induction t with
  | nil => simp [writesOf]
  | cons ev rest ih => cases ev <;> simp [writesOf, ih]

/-- When the composition (if any) and every write succeed, the loop writes every
file once, in order, and succeeds. -/
theorem rangeFiles_ok (lib : Lib) (p : KoolPreset) (database : String) (dc : Bool)
    (files : List (String × String)) (composed : String)
    (hcomp : dc = false → (∃ c, ("docker-compose.yml", c) ∈ files) →
      (composeDockerCompose lib "docker-compose.yml" database).result = .ok composed)
    (hwrite : ∀ f ∈ files, (p.parser.WriteFile f.1
      (if f.1 = "docker-compose.yml" ∧ dc = false then composed else f.2)).2 = none) :
    (rangeFiles lib p database dc files).result = .ok () ∧
    writesOf (rangeFiles lib p database dc files).trace =
      files.map (fun f =>
        (f.1, if f.1 = "docker-compose.yml" ∧ dc = false then composed else f.2)) ∧
    (dc = true → (rangeFiles lib p database dc files).trace =
      files.map (fun f => Event.WriteFile f.1 f.2)) := by
  induction files with
  | nil => simp [rangeFiles, Eff.pure, writesOf]
  | cons f rest ih =>
    obtain ⟨n0, c0⟩ := f
    have hcomp' : dc = false → (∃ c, ("docker-compose.yml", c) ∈ rest) →
        (composeDockerCompose lib "docker-compose.yml" database).result = .ok composed := by
      intro h1 ⟨c, hc⟩
      exact hcomp h1 ⟨c, List.mem_cons_of_mem _ hc⟩
    have hwrite' : ∀ f ∈ rest, (p.parser.WriteFile f.1
        (if f.1 = "docker-compose.yml" ∧ dc = false then composed else f.2)).2 = none :=
      fun f hf => hwrite f (List.mem_cons_of_mem _ hf)
    obtain ⟨ih1, ih2, ih3⟩ := ih hcomp' hwrite'
    have hW := hwrite (n0, c0) (List.mem_cons_self _ _)
    by_cases hc : n0 = "docker-compose.yml" ∧ dc = false
    · obtain ⟨hn, hdc⟩ := hc
      subst hn hdc
      have hX := hcomp rfl ⟨c0, List.mem_cons_self _ _⟩
      simp only [and_self, if_true] at hW
      rw [rangeFiles_cons_compose, Eff.bind_ok _ _ composed hX, writeFile_ok p _ _ hW]
      have hXw : writesOf (composeDockerCompose lib "docker-compose.yml" database).trace = [] :=
        writesOf_eq_nil _ (fun n c hm =>
          Event.isCompose_not_write (composeDockerCompose_events _ _ _ _ hm) n c rfl)
      simp [writesOf_append, hXw, writesOf, ih1, ih2]
    · simp only [hc, if_false] at hW
      rw [rangeFiles_cons_plain _ _ _ _ _ _ _ hc, writeFile_ok p _ _ hW]
      simp [writesOf, ih1, ih2, hc]
      exact ih3

/-! ### Selection, conflict check and the whole run -/

theorem selectPreset_cons (p : KoolPreset) (a : String) (rest : List String) :
    selectPreset p (a :: rest) = ⟨[], .ok (a, "", true)⟩ := rfl

theorem selectPreset_notTTY (p : KoolPreset) (h : p.IsTerminal = false) :
    selectPreset p [] = ⟨[Event.IsTerminal], .error errNotTTY⟩ := by
  simp [selectPreset, call, h, fail]

theorem callErr_cases {α : Type} (ev : Event) (r : α × Option GoError) :
    (∃ e, callErr ev r = ⟨[ev], .error e⟩) ∨ callErr ev r = ⟨[ev], .ok r.1⟩ := by
  obtain ⟨a, o⟩ := r
  cases o <;> simp [callErr]

theorem selectPreset_events (p : KoolPreset) (args : List String) (ev : Event)
    (h : ev ∈ (selectPreset p args).trace) : ev.isSelection := by
  cases args with
  | cons a rest => simp [selectPreset_cons] at h
  | nil =>
    revert h
    unfold selectPreset
    simp only [bind_def, call, Eff.bind_mk_ok, ask]
    by_cases hT : p.IsTerminal = false
    · simp [hT, fail, Event.isSelection]
      aesop
    · simp only [hT, if_false]
      rcases callErr_cases (Event.Ask "What language do you want to use" p.parser.GetLanguages)
        (p.promptSelect.Ask "What language do you want to use" p.parser.GetLanguages)
        with ⟨e, h1⟩ | h1
      · rw [h1]
        simp [Event.isSelection]
        aesop
      · rw [h1]
        simp only [Eff.bind_mk_ok]
        generalize (p.promptSelect.Ask "What language do you want to use"
          p.parser.GetLanguages).1 = language
        rcases callErr_cases (Event.Ask "What preset do you want to use"
          (p.parser.GetPresets language))
          (p.promptSelect.Ask "What preset do you want to use" (p.parser.GetPresets language))
          with ⟨e, h2⟩ | h2
        · rw [h2]
          simp [Event.isSelection]
          aesop
        · rw [h2]
          simp only [Eff.bind_mk_ok]
          generalize (p.promptSelect.Ask "What preset do you want to use"
            (p.parser.GetPresets language)).1 = preset
          by_cases hA : p.parser.GetPresetMetaValue preset "ask_database" = ""
          · simp [hA, Eff.pure, Event.isSelection]
            aesop
          · simp only [ne_eq, hA, not_false_eq_true, if_true]
            rcases callErr_cases (Event.Ask "What database do you want to use"
              (Split (p.parser.GetPresetMetaValue preset "ask_database") ","))
              (p.promptSelect.Ask "What database do you want to use"
                (Split (p.parser.GetPresetMetaValue preset "ask_database") ","))
              with ⟨e, h3⟩ | h3
            · rw [h3]
              simp [Event.isSelection]
              aesop
            · rw [h3]
              simp [Eff.pure, Event.isSelection]
              aesop

/-- A run without argument never is a "default compose" run. -/
theorem selectPreset_nil_defaultCompose (p : KoolPreset) (preset database : String) (dc : Bool)
    (h : (selectPreset p []).result = .ok (preset, database, dc)) : dc = false := by
  revert h
  unfold selectPreset
  simp only [bind_def, call, Eff.bind_mk_ok, ask]
  by_cases hT : p.IsTerminal = false
  · simp [hT, fail]
  · simp only [hT, if_false]
    rcases callErr_cases (Event.Ask "What language do you want to use" p.parser.GetLanguages)
      (p.promptSelect.Ask "What language do you want to use" p.parser.GetLanguages)
      with ⟨e, h1⟩ | h1
    · rw [h1]
      simp
    · rw [h1]
      simp only [Eff.bind_mk_ok]
      generalize (p.promptSelect.Ask "What language do you want to use"
        p.parser.GetLanguages).1 = language
      rcases callErr_cases (Event.Ask "What preset do you want to use"
        (p.parser.GetPresets language))
        (p.promptSelect.Ask "What preset do you want to use" (p.parser.GetPresets language))
        with ⟨e, h2⟩ | h2
      · rw [h2]
        simp
      · rw [h2]
        simp only [Eff.bind_mk_ok]
        generalize (p.promptSelect.Ask "What preset do you want to use"
          (p.parser.GetPresets language)).1 = preset0
        by_cases hA : p.parser.GetPresetMetaValue preset0 "ask_database" = ""
        · simp [hA, Eff.pure]
        · simp only [ne_eq, hA, not_false_eq_true, if_true]
          rcases callErr_cases (Event.Ask "What database do you want to use"
            (Split (p.parser.GetPresetMetaValue preset0 "ask_database") ","))
            (p.promptSelect.Ask "What database do you want to use"
              (Split (p.parser.GetPresetMetaValue preset0 "ask_database") ","))
            with ⟨e, h3⟩ | h3
          · rw [h3]
            simp
          · rw [h3]
            simp [Eff.pure]

theorem warnExisting_eq (files : List String) :
    warnExisting files =
      ⟨files.map (fun fileName => Event.Warning ["Preset file ", fileName, " already exists."]),
        .ok ()⟩ := by
  induction files with
  | nil => rfl
  | cons f rest ih => simp [warnExisting, call, ih]

theorem checkConflicts_override (p : KoolPreset) (preset : String)
    (h : p.Flags.Override = true) : checkConflicts p preset = ⟨[], .ok ()⟩ := by
  simp [checkConflicts, h, Eff.pure]

theorem checkConflicts_none (p : KoolPreset) (preset : String)
    (h : p.Flags.Override = false) (hfiles : p.parser.LookUpFiles preset = []) :
    checkConflicts p preset = ⟨[Event.LookUpFiles preset], .ok ()⟩ := by
  simp [checkConflicts, h, hfiles, call, warnExisting_eq, Eff.pure]

theorem checkConflicts_some (p : KoolPreset) (preset : String)
    (h : p.Flags.Override = false) (hfiles : p.parser.LookUpFiles preset ≠ []) :
    checkConflicts p preset =
      ⟨Event.LookUpFiles preset :: (p.parser.LookUpFiles preset).map
        (fun fileName => Event.Warning ["Preset file ", fileName, " already exists."]),
        .error ErrPresetFilesAlreadyExists⟩ := by
  have hlen : 0 < (p.parser.LookUpFiles preset).length := List.length_pos.mpr hfiles
  simp [checkConflicts, h, call, warnExisting_eq, Eff.pure, fail, hlen]

theorem materialize_unknown (lib : Lib) (p : KoolPreset) (preset database : String) (dc : Bool)
    (h : p.parser.Exists preset = false) :
    materialize lib p preset database dc =
      ⟨[Event.Exists preset], .error (errUnknownPreset preset)⟩ := by
  simp [materialize, call, h, fail]

theorem materialize_known (lib : Lib) (p : KoolPreset) (preset database : String) (dc : Bool)
    (h : p.parser.Exists preset = true) :
    materialize lib p preset database dc =
      Eff.bind ⟨[Event.Exists preset, Event.Println ["Preset", preset, "is initializing!"]],
          .ok ()⟩
        (fun _ => Eff.bind (checkConflicts p preset)
          (fun _ => Eff.bind ⟨[Event.GetPresetContents preset], .ok ()⟩
            (fun _ => Eff.bind
              (rangeFiles lib p database dc (p.parser.GetPresetContents preset))
              (fun _ => ⟨[Event.Success ["Preset ", preset, " initialized!"]], .ok ()⟩)))) := by
  simp [materialize, call, h]

theorem Execute_eq (lib : Lib) (p : KoolPreset) (args : List String) :
    Execute lib p args = Eff.bind (selectPreset p args)
      (fun sel => materialize lib p sel.1 sel.2.1 sel.2.2) := rfl

/-! ### The error messages are told apart by their first letter -/

theorem errFailedToWrite_ne_conflict (n : String) (e : GoError) :
    errFailedToWrite n e ≠ ErrPresetFilesAlreadyExists := by
  intro h
  have h2 := congrArg (fun x => x.Error.data.head?) h
  simp [errFailedToWrite, ErrPresetFilesAlreadyExists, String.data_append] at h2

theorem errFailedToWrite_ne_notTTY (n : String) (e : GoError) :
    errFailedToWrite n e ≠ errNotTTY := by
  intro h
  have h2 := congrArg (fun x => x.Error.data.head?) h
  simp [errFailedToWrite, errNotTTY, String.data_append] at h2

theorem errUnknownPreset_ne_notTTY (x : String) : errUnknownPreset x ≠ errNotTTY := by
  intro h
  have h2 := congrArg (fun x => x.Error.data.head?) h
  simp [errUnknownPreset, errNotTTY, String.data_append] at h2

theorem conflict_ne_notTTY : ErrPresetFilesAlreadyExists ≠ errNotTTY := by decide

theorem materialize_cases (lib : Lib) (p : KoolPreset) (preset database : String) (dc : Bool)
    (h : p.parser.Exists preset = true) :
    (∃ e, (checkConflicts p preset).result = .error e ∧
      materialize lib p preset database dc =
        ⟨[Event.Exists preset, Event.Println ["Preset", preset, "is initializing!"]] ++
          (checkConflicts p preset).trace, .error e⟩) ∨
    ((checkConflicts p preset).result = .ok () ∧
      ∃ e, (rangeFiles lib p database dc (p.parser.GetPresetContents preset)).result = .error e ∧
      materialize lib p preset database dc =
        ⟨[Event.Exists preset, Event.Println ["Preset", preset, "is initializing!"]] ++
          (checkConflicts p preset).trace ++ [Event.GetPresetContents preset] ++
          (rangeFiles lib p database dc (p.parser.GetPresetContents preset)).trace,
          .error e⟩) ∨
    ((checkConflicts p preset).result = .ok () ∧
      (rangeFiles lib p database dc (p.parser.GetPresetContents preset)).result = .ok () ∧
      materialize lib p preset database dc =
        ⟨[Event.Exists preset, Event.Println ["Preset", preset, "is initializing!"]] ++
          (checkConflicts p preset).trace ++ [Event.GetPresetContents preset] ++
          (rangeFiles lib p database dc (p.parser.GetPresetContents preset)).trace ++
          [Event.Success ["Preset ", preset, " initialized!"]], .ok ()⟩) := by
  rw [materialize_known lib p preset database dc h]
  rcases hC : (checkConflicts p preset).result with e | u
  · left
    exact ⟨e, rfl, by simp [Eff.bind_error _ _ e hC]⟩
  · right
    rcases hR : (rangeFiles lib p database dc (p.parser.GetPresetContents preset)).result
      with e | u2
    · left
      exact ⟨rfl, e, rfl, by simp [Eff.bind_ok _ _ u hC, Eff.bind_error _ _ e hR]⟩
    · right
      exact ⟨rfl, rfl, by simp [Eff.bind_ok _ _ u hC, Eff.bind_ok _ _ u2 hR]⟩

theorem checkConflicts_cases (p : KoolPreset) (preset : String) :
    (p.Flags.Override = true ∧ checkConflicts p preset = ⟨[], .ok ()⟩) ∨
    (p.Flags.Override = false ∧ p.parser.LookUpFiles preset = [] ∧
      checkConflicts p preset = ⟨[Event.LookUpFiles preset], .ok ()⟩) ∨
    (p.Flags.Override = false ∧ p.parser.LookUpFiles preset ≠ [] ∧
      checkConflicts p preset =
        ⟨Event.LookUpFiles preset :: (p.parser.LookUpFiles preset).map
          (fun fileName => Event.Warning ["Preset file ", fileName, " already exists."]),
          .error ErrPresetFilesAlreadyExists⟩) := by
  rcases hO : p.Flags.Override with _ | _
  · right
    by_cases hf : p.parser.LookUpFiles preset = []
    · left
      exact ⟨rfl, hf, checkConflicts_none p preset hO hf⟩
    · right
      exact ⟨rfl, hf, checkConflicts_some p preset hO hf⟩
  · left
    exact ⟨rfl, checkConflicts_override p preset hO⟩

/-- Every error of the loop is a wrapped error. -/
theorem rangeFiles_error_form (lib : Lib) (p : KoolPreset) (database : String) (dc : Bool)
    (files : List (String × String)) (e : GoError)
    (h : (rangeFiles lib p database dc files).result = .error e) :
    ∃ n e1, e = errFailedToWrite n e1 := by
  induction files with
  | nil => simp [rangeFiles, Eff.pure] at h
  | cons f rest ih =>
    obtain ⟨n0, c0⟩ := f
    have key : ∀ (X : Eff String), (∀ e0, X.result = .error e0 → ∃ n e1, e0 = errFailedToWrite n e1) →
        (Eff.bind X (fun content => Eff.bind (writeFile p n0 content)
          (fun _ => rangeFiles lib p database dc rest))).result = .error e →
        ∃ n e1, e = errFailedToWrite n e1 := by
      intro X hX h
      rcases hR : X.result with e0 | content
      · rw [Eff.bind_error _ _ e0 hR] at h
        simp at h
        subst h
        exact hX _ hR
      · rw [Eff.bind_ok _ _ content hR] at h
        rcases hW : (p.parser.WriteFile n0 content).2 with _ | e1
        · rw [writeFile_ok p _ _ hW] at h
          simp at h
          exact ih h
        · rw [writeFile_error p _ _ e1 hW] at h
          simp at h
          exact ⟨_, _, h.symm⟩
    rw [rangeFiles_cons] at h
    refine key _ ?_ h
    intro e0 he0
    split at he0
    · rcases hS : (composeServices lib n0 database).result with eS | S
      · rw [composeDockerCompose_error _ _ _ _ hS] at he0
        simp at he0
        subst he0
        revert hS
        rcases hA : lib.Unmarshal (lib.GetTemplates "app" "php74.yml") with eA | A
        · rw [composeServices_app_error _ _ _ _ hA]
          simp
          intro h
          exact ⟨_, _, h.symm⟩
        · by_cases hdb : database = ""
          · rcases hC : lib.Unmarshal (lib.GetTemplates "cache" "redis6.yml") with eC | C
            · rw [composeServices_cache_error _ _ _ A [] _ hA (fun h => absurd hdb h) hC]
              simp
              intro h
              exact ⟨_, _, h.symm⟩
            · rw [composeServices_ok _ _ _ A [] C hA (fun h => absurd hdb h) hC]
              simp
          · rcases hD : lib.Unmarshal (lib.GetTemplates "database" (databaseKey lib database))
              with eD | D
            · rw [composeServices_database_error _ _ _ A _ hdb hA hD]
              simp
              intro h
              exact ⟨_, _, h.symm⟩
            · rcases hC : lib.Unmarshal (lib.GetTemplates "cache" "redis6.yml") with eC | C
              · rw [composeServices_cache_error _ _ _ A D _ hA (fun _ => hD) hC]
                simp
                intro h
                exact ⟨_, _, h.symm⟩
              · rw [composeServices_ok _ _ _ A D C hA (fun _ => hD) hC]
                simp
      · rw [composeDockerCompose_ok _ _ _ _ hS] at he0
        simp at he0
        split at he0
        · simp at he0
          exact ⟨_, _, he0.symm⟩
        · simp at he0
    · simp [Eff.pure] at he0

/-- The loop and the conflict check consult the parser and the flags only. -/
theorem rangeFiles_congr (lib : Lib) (p q : KoolPreset) (database : String) (dc : Bool)
    (files : List (String × String)) (h : p.parser = q.parser) :
    rangeFiles lib p database dc files = rangeFiles lib q database dc files := by
  induction files with
  | nil => rfl
  | cons f rest ih =>
    obtain ⟨n0, c0⟩ := f
    simp only [rangeFiles_cons, ih, writeFile, h]

theorem materialize_congr (lib : Lib) (p q : KoolPreset) (preset database : String) (dc : Bool)
    (h : p.parser = q.parser) (hF : p.Flags = q.Flags) :
    materialize lib p preset database dc = materialize lib q preset database dc := by
  simp only [materialize, checkConflicts, rangeFiles_congr lib p q _ _ _ h, h, hF]

theorem Event.isEarly_not_loop {ev : Event} (h : ev.isEarly) : ¬ ev.isLoop := by
  intro hl
  rcases hl with ⟨n, c, rfl⟩ | ⟨d, rfl⟩ | ⟨d, rfl⟩ <;>
    simp [Event.isEarly, Event.isSelection] at h

theorem Event.isEarly_not_success {ev : Event} (h : ev.isEarly) (a : List String) :
    ev ≠ Event.Success a := by
  intro hl
  subst hl
  simp [Event.isEarly, Event.isSelection] at h

theorem Event.isLoop_not_success {ev : Event} (h : ev.isLoop) (a : List String) :
    ev ≠ Event.Success a := by
  intro hl
  subst hl
  simp [Event.isLoop, Event.isCompose] at h

theorem Execute_of_select (lib : Lib) (p : KoolPreset) (args : List String) (t : List Event)
    (preset database : String) (dc : Bool)
    (hsel : selectPreset p args = ⟨t, .ok (preset, database, dc)⟩) :
    Execute lib p args =
      ⟨t ++ (materialize lib p preset database dc).trace,
        (materialize lib p preset database dc).result⟩ := by
  rw [Execute_eq, hsel]
  rfl

theorem checkConflicts_events (p : KoolPreset) (preset : String) (ev : Event)
    (h : ev ∈ (checkConflicts p preset).trace) :
    ev = Event.LookUpFiles preset ∨ ∃ a, ev = Event.Warning a := by
  rcases checkConflicts_cases p preset with ⟨_, h1⟩ | ⟨_, _, h1⟩ | ⟨_, _, h1⟩ <;>
    rw [h1] at h <;> simp at h
  · exact Or.inl h
  · rcases h with h | ⟨f, _, h⟩
    · exact Or.inl h
    · exact Or.inr ⟨_, h.symm⟩

/-- The shape of every run: either it stops before the loop over the files, or it is
the events before the loop, the loop, and the report of success if the loop succeeded. -/
theorem Execute_shape (lib : Lib) (p : KoolPreset) (args : List String) :
    ((∃ e, (Execute lib p args).result = .error e) ∧
      ∀ ev ∈ (Execute lib p args).trace, ev.isEarly) ∨
    ∃ pre preset database dc, (selectPreset p args).result = .ok (preset, database, dc) ∧
      (∀ ev ∈ pre, ev.isEarly) ∧
      ((∃ e, (rangeFiles lib p database dc (p.parser.GetPresetContents preset)).result =
            .error e ∧
          Execute lib p args =
            ⟨pre ++ (rangeFiles lib p database dc (p.parser.GetPresetContents preset)).trace,
              .error e⟩) ∨
        ((rangeFiles lib p database dc (p.parser.GetPresetContents preset)).result = .ok () ∧
          Execute lib p args =
            ⟨pre ++ (rangeFiles lib p database dc (p.parser.GetPresetContents preset)).trace ++
              [Event.Success ["Preset ", preset, " initialized!"]], .ok ()⟩)) := by
  have hselEv := selectPreset_events p args
  rcases hS : selectPreset p args with ⟨t, r⟩
  rw [hS] at hselEv
  simp only at hselEv
  rcases r with e | ⟨preset, database, dc⟩
  · left
    rw [Execute_eq, hS]
    refine ⟨⟨e, rfl⟩, ?_⟩
    intro ev hev
    exact Or.inl (hselEv ev hev)
  · rw [Execute_of_select lib p args t preset database dc hS]
    rcases hE : p.parser.Exists preset with _ | _
    · left
      rw [materialize_unknown lib p preset database dc hE]
      refine ⟨⟨_, rfl⟩, ?_⟩
      intro ev hev
      simp at hev
      rcases hev with hev | hev
      · exact Or.inl (hselEv ev hev)
      · exact Or.inr (Or.inl ⟨_, hev⟩)
    · have hpre : ∀ ev ∈ t ++ ([Event.Exists preset,
          Event.Println ["Preset", preset, "is initializing!"]] ++
          (checkConflicts p preset).trace ++ [Event.GetPresetContents preset]), ev.isEarly := by
        intro ev hev
        simp at hev
        rcases hev with hev | hev | hev | hev | hev
        · exact Or.inl (hselEv ev hev)
        · exact Or.inr (Or.inl ⟨_, hev⟩)
        · exact Or.inr (Or.inr (Or.inl ⟨_, hev⟩))
        · rcases checkConflicts_events p preset ev hev with h | ⟨a, h⟩
          · exact Or.inr (Or.inr (Or.inr (Or.inl ⟨_, h⟩)))
          · exact Or.inr (Or.inr (Or.inr (Or.inr (Or.inl ⟨_, h⟩))))
        · exact Or.inr (Or.inr (Or.inr (Or.inr (Or.inr ⟨_, hev⟩))))
      rcases materialize_cases lib p preset database dc hE with
        ⟨e, _, hM⟩ | ⟨_, e, hR, hM⟩ | ⟨_, hR, hM⟩
      · left
        rw [hM]
        refine ⟨⟨e, rfl⟩, ?_⟩
        intro ev hev
        apply hpre
        simp at hev ⊢
        tauto
      · right
        refine ⟨_, preset, database, dc, rfl, hpre, Or.inl ⟨e, hR, ?_⟩⟩
        rw [hM]
        simp
      · right
        refine ⟨_, preset, database, dc, rfl, hpre, Or.inr ⟨hR, ?_⟩⟩
        rw [hM]
        simp

/-! ### An example run -/

/-- The run without argument in which the user picks `php`, `laravel` and `My SQL`:
`kool.yml` is written verbatim, `docker-compose.yml` is composed, and success is
reported. -/
theorem demoPreset_run :
    Execute demoLib demoPreset [] =
      ⟨[Event.IsTerminal, Event.GetLanguages,
        Event.Ask "What language do you want to use" ["php"],
        Event.GetPresets "php",
        Event.Ask "What preset do you want to use" ["laravel"],
        Event.GetPresetMetaValue "laravel" "ask_database",
        Event.Ask "What database do you want to use" ["My SQL", "PostgreSQL 13.0"],
        Event.Exists "laravel", Event.Println ["Preset", "laravel", "is initializing!"],
        Event.LookUpFiles "laravel", Event.GetPresetContents "laravel",
        Event.WriteFile "kool.yml" "scripts",
        Event.parseYml "app/php74.yml", Event.parseYml "database/mysql.yml",
        Event.parseYml "cache/redis6.yml",
        Event.Marshal [⟨GoValue.str "version", GoValue.str "3.7"⟩,
          ⟨GoValue.str "services", GoValue.mapSlice
            [⟨GoValue.str "app",
                GoValue.mapSlice [⟨GoValue.str "image", GoValue.str "kooldev/php:7.4"⟩]⟩,
              ⟨GoValue.str "database",
                GoValue.mapSlice [⟨GoValue.str "image", GoValue.str "mysql:8"⟩]⟩,
              ⟨GoValue.str "cache",
                GoValue.mapSlice [⟨GoValue.str "image", GoValue.str "redis:6"⟩]⟩]⟩],
        Event.WriteFile "docker-compose.yml" "composed",
        Event.Success ["Preset ", "laravel", " initialized!"]], .ok ()⟩ := rfl

/-! ## The claims -/

/-- C8, amended: a `WriteFile` call of a run of `Execute` that returns an error is the
last event of the run: `Execute` returns the error that wraps the file name reported by
`WriteFile` itself (`fileError`, its first result), every `WriteFile` call before it
succeeded and stays in the trace, no call follows it, and success is not reported. -/
theorem C8_first_write_failure_aborts (lib : Lib) (p : KoolPreset) (args : List String)
    (n c : String) (e : GoError)
    (hmem : Event.WriteFile n c ∈ (Execute lib p args).trace)
    (hfail : (p.parser.WriteFile n c).2 = some e) :
    (Execute lib p args).err = some (errFailedToWrite (p.parser.WriteFile n c).1 e) ∧
    (∃ before, (Execute lib p args).trace = before ++ [Event.WriteFile n c] ∧
      ∀ n1 c1, Event.WriteFile n1 c1 ∈ before → (p.parser.WriteFile n1 c1).2 = none) ∧
    ∀ a, Event.Success a ∉ (Execute lib p args).trace := by
  rcases Execute_shape lib p args with ⟨_, hearly⟩ | ⟨pre, preset, database, dc, _, hpre, hrun⟩
  · exact absurd (Or.inl ⟨n, c, rfl⟩) (Event.isEarly_not_loop (hearly _ hmem))
  · have hpreW : ∀ n1 c1, Event.WriteFile n1 c1 ∉ pre := fun n1 c1 hm =>
      Event.isEarly_not_loop (hpre _ hm) (Or.inl ⟨n1, c1, rfl⟩)
    have hmemR : Event.WriteFile n c ∈
        (rangeFiles lib p database dc (p.parser.GetPresetContents preset)).trace := by
      rcases hrun with ⟨e0, _, hE⟩ | ⟨_, hE⟩ <;> rw [hE] at hmem <;> simp at hmem
      · rcases hmem with hm | hm
        · exact absurd hm (hpreW _ _)
        · exact hm
      · rcases hmem with hm | hm
        · exact absurd hm (hpreW _ _)
        · exact hm
    obtain ⟨before, hR, hbefore⟩ :=
      rangeFiles_write_fail lib p database dc _ n c e hmemR hfail
    rcases hrun with ⟨e0, he0, hE⟩ | ⟨hok, _⟩
    · rw [hR] at he0
      simp only [Except.error.injEq] at he0
      rw [hE, hR, ← he0]
      refine ⟨by simp, ⟨pre ++ before, by simp, ?_⟩, ?_⟩
      · intro n1 c1 hm
        simp at hm
        rcases hm with hm | hm
        · exact absurd hm (hpreW _ _)
        · exact hbefore _ _ hm
      · intro a hm
        simp at hm
        rcases hm with hm | hm
        · exact Event.isEarly_not_success (hpre _ hm) a rfl
        · have := rangeFiles_events lib p database dc
            (p.parser.GetPresetContents preset) (Event.Success a) (by rw [hR]; simp [hm])
          exact Event.isLoop_not_success this a rfl
    · rw [hR] at hok
      simp at hok

/-- C8, witnessed: the write of `docker-compose.yml` fails on a full disk. -/
theorem C8_first_write_failure_aborts_witness :
    (Execute demoLib diskFullPreset ["laravel"]).err =
        some (errFailedToWrite
          (diskFullPreset.parser.WriteFile "docker-compose.yml" "static").1 ⟨"disk full"⟩) ∧
    (∃ before, (Execute demoLib diskFullPreset ["laravel"]).trace =
        before ++ [Event.WriteFile "docker-compose.yml" "static"] ∧
      ∀ n1 c1, Event.WriteFile n1 c1 ∈ before →
        (diskFullPreset.parser.WriteFile n1 c1).2 = none) ∧
    ∀ a, Event.Success a ∉ (Execute demoLib diskFullPreset ["laravel"]).trace :=
  C8_first_write_failure_aborts demoLib diskFullPreset ["laravel"] "docker-compose.yml"
    "static" ⟨"disk full"⟩
    (by
      rw [show (Execute demoLib diskFullPreset ["laravel"]).trace =
        [Event.Exists "laravel", Event.Println ["Preset", "laravel", "is initializing!"],
          Event.LookUpFiles "laravel", Event.GetPresetContents "laravel",
          Event.WriteFile "kool.yml" "scripts",
          Event.WriteFile "docker-compose.yml" "static"] from rfl]
      simp)
    (by decide)

/-- C8 as stated fails: here the write of `docker-compose.yml` fails and `WriteFile`
reports an empty file name, so the error returned by `Execute` wraps the empty name and
not the name of the file that failed. -/
theorem C8_counterexample_wraps_reported_name :
    Execute demoLib unnamedFailurePreset ["laravel"] =
      ⟨[Event.Exists "laravel", Event.Println ["Preset", "laravel", "is initializing!"],
          Event.LookUpFiles "laravel", Event.GetPresetContents "laravel",
          Event.WriteFile "kool.yml" "scripts",
          Event.WriteFile "docker-compose.yml" "static"],
        .error ⟨"Failed to write preset file : disk full"⟩⟩ ∧
    unnamedFailurePreset.parser.WriteFile "docker-compose.yml" "static" =
      ("", some ⟨"disk full"⟩) ∧
    (Execute demoLib unnamedFailurePreset ["laravel"]).err ≠
      some (errFailedToWrite "docker-compose.yml" ⟨"disk full"⟩) := by
  refine ⟨rfl, rfl, by decide⟩

/-- C9, amended: a template whose parse fails during a run of `Execute` ends the run at
once; `Execute` returns the error that wraps the name of the orchestration file,
`docker-compose.yml`, and the error of the yaml parser (whatever the category of the
template), the orchestration file is not written and success is not reported. -/
theorem C9_parse_failure_aborts (lib : Lib) (p : KoolPreset) (args : List String)
    (data : String) (e : GoError)
    (hmem : Event.parseYml data ∈ (Execute lib p args).trace)
    (hfail : lib.Unmarshal data = .error e) :
    (Execute lib p args).err = some (errFailedToWrite "docker-compose.yml" e) ∧
    (∃ before, (Execute lib p args).trace = before ++ [Event.parseYml data]) ∧
    (∀ c, Event.WriteFile "docker-compose.yml" c ∉ (Execute lib p args).trace) ∧
    ∀ a, Event.Success a ∉ (Execute lib p args).trace := by
  rcases Execute_shape lib p args with ⟨_, hearly⟩ | ⟨pre, preset, database, dc, _, hpre, hrun⟩
  · exact absurd (Or.inr (Or.inl ⟨data, rfl⟩)) (Event.isEarly_not_loop (hearly _ hmem))
  · have hpreL : ∀ ev ∈ pre, ¬ ev.isLoop := fun ev hm => Event.isEarly_not_loop (hpre _ hm)
    have hmemR : Event.parseYml data ∈
        (rangeFiles lib p database dc (p.parser.GetPresetContents preset)).trace := by
      rcases hrun with ⟨e0, _, hE⟩ | ⟨_, hE⟩ <;> rw [hE] at hmem <;> simp at hmem
      · rcases hmem with hm | hm
        · exact absurd (Or.inr (Or.inl ⟨data, rfl⟩)) (hpreL _ hm)
        · exact hm
      · rcases hmem with hm | hm
        · exact absurd (Or.inr (Or.inl ⟨data, rfl⟩)) (hpreL _ hm)
        · exact hm
    obtain ⟨before, hR, hbefore⟩ :=
      rangeFiles_parse_fail lib p database dc _ data e hmemR hfail
    rcases hrun with ⟨e0, he0, hE⟩ | ⟨hok, _⟩
    · rw [hR] at he0
      simp only [Except.error.injEq] at he0
      rw [hE, hR, ← he0]
      refine ⟨by simp, ⟨pre ++ before, by simp⟩, ?_, ?_⟩
      · intro c hm
        simp at hm
        rcases hm with hm | hm
        · exact hpreL _ hm (Or.inl ⟨_, _, rfl⟩)
        · exact hbefore c hm
      · intro a hm
        simp at hm
        rcases hm with hm | hm
        · exact Event.isEarly_not_success (hpre _ hm) a rfl
        · have := rangeFiles_events lib p database dc
            (p.parser.GetPresetContents preset) (Event.Success a) (by rw [hR]; simp [hm])
          exact Event.isLoop_not_success this a rfl
    · rw [hR] at hok
      simp at hok

/-- C9, witnessed: the application template does not parse. -/
theorem C9_parse_failure_aborts_witness :
    (Execute appBrokenLib demoPreset []).err =
        some (errFailedToWrite "docker-compose.yml" ⟨"yaml: unmarshal errors"⟩) ∧
    (∃ before, (Execute appBrokenLib demoPreset []).trace =
        before ++ [Event.parseYml "app/php74.yml"]) ∧
    (∀ c, Event.WriteFile "docker-compose.yml" c ∉ (Execute appBrokenLib demoPreset []).trace) ∧
    ∀ a, Event.Success a ∉ (Execute appBrokenLib demoPreset []).trace :=
  C9_parse_failure_aborts appBrokenLib demoPreset [] "app/php74.yml"
    ⟨"yaml: unmarshal errors"⟩
    (by
      rw [show (Execute appBrokenLib demoPreset []).trace =
        [Event.IsTerminal, Event.GetLanguages,
          Event.Ask "What language do you want to use" ["php"],
          Event.GetPresets "php",
          Event.Ask "What preset do you want to use" ["laravel"],
          Event.GetPresetMetaValue "laravel" "ask_database",
          Event.Ask "What database do you want to use" ["My SQL", "PostgreSQL 13.0"],
          Event.Exists "laravel", Event.Println ["Preset", "laravel", "is initializing!"],
          Event.LookUpFiles "laravel", Event.GetPresetContents "laravel",
          Event.WriteFile "kool.yml" "scripts",
          Event.parseYml "app/php74.yml"] from rfl]
      simp)
    rfl

/-- C9 as stated fails: when the application template is rejected and when the cache
template is rejected, `Execute` returns one and the same error, so the error does not
identify the category of the template that failed. -/
theorem C9_counterexample_category_not_identified :
    appBrokenLib.Unmarshal (appBrokenLib.GetTemplates "app" "php74.yml") =
        .error ⟨"yaml: unmarshal errors"⟩ ∧
    cacheBrokenLib.Unmarshal (cacheBrokenLib.GetTemplates "app" "php74.yml") = .ok [] ∧
    cacheBrokenLib.Unmarshal (cacheBrokenLib.GetTemplates "cache" "redis6.yml") =
        .error ⟨"yaml: unmarshal errors"⟩ ∧
    (Execute appBrokenLib demoPreset []).err =
        some ⟨"Failed to write preset file docker-compose.yml: yaml: unmarshal errors"⟩ ∧
    (Execute cacheBrokenLib demoPreset []).err =
        some ⟨"Failed to write preset file docker-compose.yml: yaml: unmarshal errors"⟩ := by
  refine ⟨rfl, rfl, rfl, by decide, by decide⟩

/-- The document marshalled by a run is the one composed for the selected database. -/
theorem Execute_marshal_mem (lib : Lib) (p : KoolPreset) (args : List String)
    (preset database : String) (dc : Bool) (doc : MapSlice)
    (hsel : (selectPreset p args).result = .ok (preset, database, dc))
    (hmem : Event.Marshal doc ∈ (Execute lib p args).trace) :
    Event.Marshal doc ∈ (composeDockerCompose lib "docker-compose.yml" database).trace := by
  have hloop : (Event.Marshal doc).isLoop := Or.inr (Or.inr ⟨doc, rfl⟩)
  rcases Execute_shape lib p args with ⟨_, hearly⟩ | ⟨pre, preset1, database1, dc1, hsel1, hpre, hrun⟩
  · exact absurd hloop (Event.isEarly_not_loop (hearly _ hmem))
  · rw [hsel] at hsel1
    simp only [Except.ok.injEq, Prod.mk.injEq] at hsel1
    obtain ⟨h1, h2, h3⟩ := hsel1
    subst h1 h2 h3
    have hmemR : Event.Marshal doc ∈
        (rangeFiles lib p database dc (p.parser.GetPresetContents preset)).trace := by
      rcases hrun with ⟨e0, _, hE⟩ | ⟨_, hE⟩ <;> rw [hE] at hmem <;> simp at hmem
      · rcases hmem with hm | hm
        · exact absurd hloop (Event.isEarly_not_loop (hpre _ hm))
        · exact hm
      · rcases hmem with hm | hm
        · exact absurd hloop (Event.isEarly_not_loop (hpre _ hm))
        · exact hm
    exact (rangeFiles_compose_mem lib p database dc _ _ hmemR (Or.inr ⟨doc, rfl⟩)).2

/-- C1: when the application template, the cache template and (for a non-empty
selection) the database template parse, the composition yields a services mapping whose
first entry holds the application template, whose last entry is `cache`, and which has a
`database` entry exactly when the selected database is non-empty, between the two: two
entries for an empty selection, three otherwise.  Every document that a run of `Execute`
without positional argument hands to `yaml.Marshal` carries this services mapping. -/
theorem C1_services_entries (lib : Lib) (database : String) (A D C : MapSlice)
    (hA : lib.Unmarshal (lib.GetTemplates "app" "php74.yml") = .ok A)
    (hD : database ≠ "" →
      lib.Unmarshal (lib.GetTemplates "database" (databaseKey lib database)) = .ok D)
    (hC : lib.Unmarshal (lib.GetTemplates "cache" "redis6.yml") = .ok C) :
    ∃ services : MapSlice,
      (composeServices lib "docker-compose.yml" database).result = .ok services ∧
      services.head? = some ⟨GoValue.str "app", GoValue.mapSlice A⟩ ∧
      services.getLast? = some ⟨GoValue.str "cache", GoValue.mapSlice C⟩ ∧
      ((∃ item ∈ services, item.Key = GoValue.str "database") ↔ database ≠ "") ∧
      (database = "" → services =
        [⟨GoValue.str "app", GoValue.mapSlice A⟩, ⟨GoValue.str "cache", GoValue.mapSlice C⟩]) ∧
      (database ≠ "" → services =
        [⟨GoValue.str "app", GoValue.mapSlice A⟩, ⟨GoValue.str "database", GoValue.mapSlice D⟩,
          ⟨GoValue.str "cache", GoValue.mapSlice C⟩]) ∧
      ∀ (p : KoolPreset) (preset : String) (dc : Bool) (doc : MapSlice),
        (selectPreset p []).result = .ok (preset, database, dc) →
        Event.Marshal doc ∈ (Execute lib p []).trace →
        doc = [⟨GoValue.str "version", GoValue.str "3.7"⟩,
          ⟨GoValue.str "services", GoValue.mapSlice services⟩] := by
  have hS := composeServices_ok lib "docker-compose.yml" database A D C hA hD hC
  refine ⟨_, by rw [hS], ?_, ?_, ?_, ?_, ?_, ?_⟩
  · simp
  · by_cases hdb : database = "" <;> simp [hdb]
  · by_cases hdb : database = "" <;> simp [hdb]
  · intro hdb
    simp [hdb]
  · intro hdb
    simp [hdb]
  · intro p preset dc doc hsel hmem
    have hm := Execute_marshal_mem lib p [] preset database dc doc hsel hmem
    rw [composeDockerCompose_ok lib "docker-compose.yml" database _ (by rw [hS])] at hm
    simp only [List.mem_append, List.mem_singleton] at hm
    rcases hm with hm | hm
    · obtain ⟨d, hd⟩ := composeServices_events _ _ _ _ hm
      cases hd
    · simpa using hm

/-- C1, witnessed: the user picks `My SQL`, and the three templates parse. -/
theorem C1_services_entries_witness :
    ∃ services : MapSlice,
      (composeServices demoLib "docker-compose.yml" "My SQL").result = .ok services ∧
      services.head? = some ⟨GoValue.str "app",
        GoValue.mapSlice [⟨GoValue.str "image", GoValue.str "kooldev/php:7.4"⟩]⟩ ∧
      services.getLast? = some ⟨GoValue.str "cache",
        GoValue.mapSlice [⟨GoValue.str "image", GoValue.str "redis:6"⟩]⟩ ∧
      ((∃ item ∈ services, item.Key = GoValue.str "database") ↔ "My SQL" ≠ "") ∧
      ("My SQL" = "" → services =
        [⟨GoValue.str "app", GoValue.mapSlice [⟨GoValue.str "image", GoValue.str "kooldev/php:7.4"⟩]⟩,
          ⟨GoValue.str "cache", GoValue.mapSlice [⟨GoValue.str "image", GoValue.str "redis:6"⟩]⟩]) ∧
      ("My SQL" ≠ "" → services =
        [⟨GoValue.str "app", GoValue.mapSlice [⟨GoValue.str "image", GoValue.str "kooldev/php:7.4"⟩]⟩,
          ⟨GoValue.str "database", GoValue.mapSlice [⟨GoValue.str "image", GoValue.str "mysql:8"⟩]⟩,
          ⟨GoValue.str "cache", GoValue.mapSlice [⟨GoValue.str "image", GoValue.str "redis:6"⟩]⟩]) ∧
      ∀ (p : KoolPreset) (preset : String) (dc : Bool) (doc : MapSlice),
        (selectPreset p []).result = .ok (preset, "My SQL", dc) →
        Event.Marshal doc ∈ (Execute demoLib p []).trace →
        doc = [⟨GoValue.str "version", GoValue.str "3.7"⟩,
          ⟨GoValue.str "services", GoValue.mapSlice services⟩] :=
  C1_services_entries demoLib "My SQL" _ _ _ rfl (fun _ => rfl) rfl

/-- C3, amended: when the templates parse, the composition of the orchestration file
hands to `yaml.Marshal` the document with the keys `version` (value `"3.7"`) and
`services`, in this order; inside `services` the keys are `app`, then `database` (present
only for a non-empty database name), then `cache`, the application template being
appended under the key `app`.  The document and the outcome are functions of the parsed
templates, the database name and the marshaller only, so two runs with identical inputs
compose identical documents and produce identical text. -/
theorem C3_composed_document (lib : Lib) (fileName database : String) (A D C : MapSlice)
    (hA : lib.Unmarshal (lib.GetTemplates "app" "php74.yml") = .ok A)
    (hD : database ≠ "" →
      lib.Unmarshal (lib.GetTemplates "database" (databaseKey lib database)) = .ok D)
    (hC : lib.Unmarshal (lib.GetTemplates "cache" "redis6.yml") = .ok C) :
    (∀ doc, Event.Marshal doc ∈ (composeDockerCompose lib fileName database).trace ↔
      doc = [⟨GoValue.str "version", GoValue.str "3.7"⟩,
        ⟨GoValue.str "services", GoValue.mapSlice
          ([⟨GoValue.str "app", GoValue.mapSlice A⟩] ++
            (if database = "" then [] else [⟨GoValue.str "database", GoValue.mapSlice D⟩]) ++
            [⟨GoValue.str "cache", GoValue.mapSlice C⟩])⟩]) ∧
    (composeDockerCompose lib fileName database).result =
      (match lib.Marshal [⟨GoValue.str "version", GoValue.str "3.7"⟩,
        ⟨GoValue.str "services", GoValue.mapSlice
          ([⟨GoValue.str "app", GoValue.mapSlice A⟩] ++
            (if database = "" then [] else [⟨GoValue.str "database", GoValue.mapSlice D⟩]) ++
            [⟨GoValue.str "cache", GoValue.mapSlice C⟩])⟩] with
        | .error err => .error (errFailedToWrite fileName err)
        | .ok text => .ok text) ∧
    ∀ lib2 : Lib,
      lib2.Unmarshal (lib2.GetTemplates "app" "php74.yml") = .ok A →
      (database ≠ "" →
        lib2.Unmarshal (lib2.GetTemplates "database" (databaseKey lib2 database)) = .ok D) →
      lib2.Unmarshal (lib2.GetTemplates "cache" "redis6.yml") = .ok C →
      lib2.Marshal = lib.Marshal →
      (composeDockerCompose lib2 fileName database).result =
        (composeDockerCompose lib fileName database).result := by
  have hS := composeServices_ok lib fileName database A D C hA hD hC
  have hE := composeDockerCompose_ok lib fileName database _ (by rw [hS])
  refine ⟨?_, ?_, ?_⟩
  · intro doc
    rw [hE]
    simp only [List.mem_append, List.mem_singleton]
    constructor
    · rintro (hm | hm)
      · obtain ⟨d, hd⟩ := composeServices_events _ _ _ _ hm
        cases hd
      · simpa using hm
    · intro h
      right
      rw [h]
  · rw [hE]
  · intro lib2 hA2 hD2 hC2 hM
    have hS2 := composeServices_ok lib2 fileName database A D C hA2 hD2 hC2
    rw [hE, composeDockerCompose_ok lib2 fileName database _ (by rw [hS2]), hM]

/-- C3, witnessed: the composition for `My SQL`. -/
theorem C3_composed_document_witness :
    (∀ doc, Event.Marshal doc ∈
        (composeDockerCompose demoLib "docker-compose.yml" "My SQL").trace ↔
      doc = [⟨GoValue.str "version", GoValue.str "3.7"⟩,
        ⟨GoValue.str "services", GoValue.mapSlice
          ([⟨GoValue.str "app", GoValue.mapSlice [⟨GoValue.str "image", GoValue.str "kooldev/php:7.4"⟩]⟩] ++
            (if "My SQL" = "" then []
              else [⟨GoValue.str "database",
                GoValue.mapSlice [⟨GoValue.str "image", GoValue.str "mysql:8"⟩]⟩]) ++
            [⟨GoValue.str "cache", GoValue.mapSlice [⟨GoValue.str "image", GoValue.str "redis:6"⟩]⟩])⟩]) ∧
    (composeDockerCompose demoLib "docker-compose.yml" "My SQL").result =
      (match demoLib.Marshal [⟨GoValue.str "version", GoValue.str "3.7"⟩,
        ⟨GoValue.str "services", GoValue.mapSlice
          ([⟨GoValue.str "app", GoValue.mapSlice [⟨GoValue.str "image", GoValue.str "kooldev/php:7.4"⟩]⟩] ++
            (if "My SQL" = "" then []
              else [⟨GoValue.str "database",
                GoValue.mapSlice [⟨GoValue.str "image", GoValue.str "mysql:8"⟩]⟩]) ++
            [⟨GoValue.str "cache", GoValue.mapSlice [⟨GoValue.str "image", GoValue.str "redis:6"⟩]⟩])⟩] with
        | .error err => .error (errFailedToWrite "docker-compose.yml" err)
        | .ok text => .ok text) ∧
    ∀ lib2 : Lib,
      lib2.Unmarshal (lib2.GetTemplates "app" "php74.yml") =
        .ok [⟨GoValue.str "image", GoValue.str "kooldev/php:7.4"⟩] →
      ("My SQL" ≠ "" →
        lib2.Unmarshal (lib2.GetTemplates "database" (databaseKey lib2 "My SQL")) =
          .ok [⟨GoValue.str "image", GoValue.str "mysql:8"⟩]) →
      lib2.Unmarshal (lib2.GetTemplates "cache" "redis6.yml") =
        .ok [⟨GoValue.str "image", GoValue.str "redis:6"⟩] →
      lib2.Marshal = demoLib.Marshal →
      (composeDockerCompose lib2 "docker-compose.yml" "My SQL").result =
        (composeDockerCompose demoLib "docker-compose.yml" "My SQL").result :=
  C3_composed_document demoLib "docker-compose.yml" "My SQL" _ _ _ rfl (fun _ => rfl) rfl

/-- C3 as stated fails: in the document composed for `My SQL` the keys inside `services`
are `app`, `database`, `cache`; no entry has the key `application`. -/
theorem C3_counterexample_key_is_app :
    ∃ services : MapSlice,
      (composeServices demoLib "docker-compose.yml" "My SQL").result = .ok services ∧
      services.map MapItem.Key =
        [GoValue.str "app", GoValue.str "database", GoValue.str "cache"] ∧
      services.map MapItem.Key ≠
        [GoValue.str "application", GoValue.str "database", GoValue.str "cache"] ∧
      ∀ item ∈ services, item.Key ≠ GoValue.str "application" := by
  refine ⟨_, rfl, rfl, ?_, ?_⟩
  · simp
  · intro item hitem
    simp at hitem
    rcases hitem with h | h | h <;> subst h <;> simp

/-- C2, amended: the lookup key computed by `Execute` is the name with all spaces and all
periods removed and then lower-cased, followed by the suffix `.yml`; two names that
differ only in letter case, spaces and periods give the same key and the same template
text, and `My SQL`, `my sql`, `my.sql` and `MY.SQL` all give the key `mysql.yml`. -/
theorem C2_database_key (lib : Lib) :
    (∀ database, databaseKey lib database = specLookupKey lib database ++ ".yml") ∧
    (∀ a b, specLookupKey lib a = specLookupKey lib b →
      databaseKey lib a = databaseKey lib b ∧
      lib.GetTemplates "database" (databaseKey lib a) =
        lib.GetTemplates "database" (databaseKey lib b)) ∧
    databaseKey lib "My SQL" = "mysql.yml" ∧
    databaseKey lib "my sql" = "mysql.yml" ∧
    databaseKey lib "my.sql" = "mysql.yml" ∧
    databaseKey lib "MY.SQL" = "mysql.yml" := by
  refine ⟨databaseKey_eq lib, ?_, rfl, rfl, rfl, rfl⟩
  intro a b h
  have hk : databaseKey lib a = databaseKey lib b := by
    rw [databaseKey_eq, databaseKey_eq, h]
  exact ⟨hk, by rw [hk]⟩

/-- C2, witnessed: `My SQL` and `MY.SQL` normalize alike and so find the same template. -/
theorem C2_database_key_witness :
    databaseKey demoLib "My SQL" = databaseKey demoLib "MY.SQL" ∧
    demoLib.GetTemplates "database" (databaseKey demoLib "My SQL") =
      demoLib.GetTemplates "database" (databaseKey demoLib "MY.SQL") :=
  (C2_database_key demoLib).2.1 "My SQL" "MY.SQL" (by decide)

/-- C2 as stated fails: the key computed for `My SQL` is `mysql.yml`, not `mysql`. -/
theorem C2_counterexample_key_has_suffix :
    databaseKey demoLib "My SQL" = "mysql.yml" ∧ databaseKey demoLib "My SQL" ≠ "mysql" := by
  decide

theorem warningsOf_append (t1 t2 : List Event) :
    warningsOf (t1 ++ t2) = warningsOf t1 ++ warningsOf t2 := by
  induction t1 with
  | nil => rfl
  | cons ev rest ih => cases ev <;> simp [warningsOf, ih]

theorem warningsOf_eq_nil (t : List Event) (h : ∀ a, Event.Warning a ∉ t) :
    warningsOf t = [] := by
  induction t with
  | nil => rfl
  | cons ev rest ih =>
    have hrest : ∀ a, Event.Warning a ∉ rest :=
      fun a hm => h a (List.mem_cons_of_mem _ hm)
    cases ev <;> simp [warningsOf, ih hrest]
    exact h _ (List.mem_cons_self _ _)

theorem warningsOf_map (files : List String) :
    warningsOf (files.map
      (fun fileName => Event.Warning ["Preset file ", fileName, " already exists."])) =
      files.map (fun fileName => ["Preset file ", fileName, " already exists."]) := by
  induction files with
  | nil => rfl
  | cons f rest ih => simp [warningsOf, ih]

theorem Event.isSelection_not_warning {ev : Event} (h : ev.isSelection) (a : List String) :
    ev ≠ Event.Warning a := by
  intro hl
  subst hl
  simp [Event.isSelection] at h

theorem materialize_conflict (lib : Lib) (p : KoolPreset) (preset database : String)
    (dc : Bool) (hE : p.parser.Exists preset = true) (hO : p.Flags.Override = false)
    (hF : p.parser.LookUpFiles preset ≠ []) :
    materialize lib p preset database dc =
      ⟨[Event.Exists preset, Event.Println ["Preset", preset, "is initializing!"],
          Event.LookUpFiles preset] ++
        (p.parser.LookUpFiles preset).map
          (fun fileName => Event.Warning ["Preset file ", fileName, " already exists."]),
        .error ErrPresetFilesAlreadyExists⟩ := by
  rw [materialize_known lib p preset database dc hE, checkConflicts_some p preset hO hF]
  simp

theorem materialize_no_conflict (lib : Lib) (p : KoolPreset) (preset database : String)
    (dc : Bool) (hE : p.parser.Exists preset = true)
    (h : p.Flags.Override = true ∨ p.parser.LookUpFiles preset = []) :
    (materialize lib p preset database dc).err ≠ some ErrPresetFilesAlreadyExists ∧
    (p.Flags.Override = true →
      ∀ x, Event.LookUpFiles x ∉ (materialize lib p preset database dc).trace) := by
  have hCC : (checkConflicts p preset).result = .ok () ∧
      (p.Flags.Override = true → (checkConflicts p preset).trace = []) := by
    rcases checkConflicts_cases p preset with ⟨_, h1⟩ | ⟨hO, _, h1⟩ | ⟨hO, hF, _⟩
    · rw [h1]
      simp
    · rw [h1]
      simp [hO]
    · rcases h with h | h
      · rw [hO] at h
        cases h
      · exact absurd h hF
  obtain ⟨hCr, hCt⟩ := hCC
  have hRF : ∀ x, Event.LookUpFiles x ∉
      (rangeFiles lib p database dc (p.parser.GetPresetContents preset)).trace := by
    intro x hm
    rcases rangeFiles_events lib p database dc _ _ hm with ⟨n, c, h1⟩ | ⟨d, h1⟩ | ⟨d, h1⟩ <;>
      cases h1
  rcases materialize_cases lib p preset database dc hE with
    ⟨e, he, _⟩ | ⟨_, e, hR, hM⟩ | ⟨_, hR, hM⟩
  · rw [hCr] at he
    cases he
  · rw [hM]
    refine ⟨?_, ?_⟩
    · obtain ⟨n, e1, he1⟩ := rangeFiles_error_form lib p database dc _ e hR
      rw [he1]
      simp only [Eff.err_mk_error, ne_eq, Option.some.injEq]
      exact errFailedToWrite_ne_conflict n e1
    · intro hO x hm
      rw [hCt hO] at hm
      simp at hm
      exact hRF x hm
  · rw [hM]
    refine ⟨by simp, ?_⟩
    intro hO x hm
    rw [hCt hO] at hm
    simp at hm
    exact hRF x hm

/-- C4: in a run of `Execute` that reaches the conflict check with a known preset,
`Execute` returns `ErrPresetFilesAlreadyExists` if and only if the override flag is not
set and `LookUpFiles(preset)` is non-empty; in that case the run ends with one warning
for every file name `LookUpFiles` returned and `WriteFile` is never called; when the
override flag is set `LookUpFiles` is not consulted and the conflict error is not
returned. -/
theorem C4_conflict_check (lib : Lib) (p : KoolPreset) (args : List String) (t : List Event)
    (preset database : String) (dc : Bool)
    (hsel : selectPreset p args = ⟨t, .ok (preset, database, dc)⟩)
    (hknown : p.parser.Exists preset = true) :
    ((Execute lib p args).err = some ErrPresetFilesAlreadyExists ↔
      (p.Flags.Override = false ∧ p.parser.LookUpFiles preset ≠ [])) ∧
    (p.Flags.Override = false → p.parser.LookUpFiles preset ≠ [] →
      (Execute lib p args).trace =
        t ++ [Event.Exists preset, Event.Println ["Preset", preset, "is initializing!"],
          Event.LookUpFiles preset] ++
        (p.parser.LookUpFiles preset).map
          (fun fileName => Event.Warning ["Preset file ", fileName, " already exists."]) ∧
      warningsOf (Execute lib p args).trace =
        (p.parser.LookUpFiles preset).map
          (fun fileName => ["Preset file ", fileName, " already exists."]) ∧
      ∀ n c, Event.WriteFile n c ∉ (Execute lib p args).trace) ∧
    (p.Flags.Override = true →
      (∀ x, Event.LookUpFiles x ∉ (Execute lib p args).trace) ∧
      (Execute lib p args).err ≠ some ErrPresetFilesAlreadyExists) := by
  have hE := Execute_of_select lib p args t preset database dc hsel
  have htsel : ∀ ev ∈ t, ev.isSelection := by
    intro ev hev
    have := selectPreset_events p args ev
    rw [hsel] at this
    exact this hev
  have herr : (Execute lib p args).err = (materialize lib p preset database dc).err := by
    rw [hE]
    rfl
  refine ⟨?_, ?_, ?_⟩
  · rw [herr]
    constructor
    · intro h
      by_contra hcon
      have hcon2 : p.Flags.Override = true ∨ p.parser.LookUpFiles preset = [] := by
        rcases hO : p.Flags.Override with _ | _
        · right
          by_contra hF
          exact hcon ⟨hO, hF⟩
        · left
          rfl
      exact (materialize_no_conflict lib p preset database dc hknown hcon2).1 h
    · rintro ⟨hO, hF⟩
      rw [materialize_conflict lib p preset database dc hknown hO hF]
      rfl
  · intro hO hF
    rw [hE, materialize_conflict lib p preset database dc hknown hO hF]
    refine ⟨by simp, ?_, ?_⟩
    · have ht : warningsOf t = [] :=
        warningsOf_eq_nil t (fun a hm => Event.isSelection_not_warning (htsel _ hm) a rfl)
      simp only [List.cons_append, List.nil_append, warningsOf_append, ht, warningsOf,
        warningsOf_map]
    · intro n c hm
      simp at hm
      have := htsel _ hm
      simp [Event.isSelection] at this
  · intro hO
    obtain ⟨h1, h2⟩ := materialize_no_conflict lib p preset database dc hknown (Or.inl hO)
    refine ⟨?_, by rw [herr]; exact h1⟩
    intro x hm
    rw [hE] at hm
    simp only [List.mem_append] at hm
    rcases hm with hm | hm
    · have := htsel _ hm
      simp [Event.isSelection] at this
    · exact h2 hO x hm

/-- C4, witnessed: `kool.yml` already exists and the override flag is not set. -/
theorem C4_conflict_check_witness :
    ((Execute demoLib conflictPreset ["laravel"]).err = some ErrPresetFilesAlreadyExists ↔
      (conflictPreset.Flags.Override = false ∧
        conflictPreset.parser.LookUpFiles "laravel" ≠ [])) ∧
    (conflictPreset.Flags.Override = false → conflictPreset.parser.LookUpFiles "laravel" ≠ [] →
      (Execute demoLib conflictPreset ["laravel"]).trace =
        [] ++ [Event.Exists "laravel", Event.Println ["Preset", "laravel", "is initializing!"],
          Event.LookUpFiles "laravel"] ++
        (conflictPreset.parser.LookUpFiles "laravel").map
          (fun fileName => Event.Warning ["Preset file ", fileName, " already exists."]) ∧
      warningsOf (Execute demoLib conflictPreset ["laravel"]).trace =
        (conflictPreset.parser.LookUpFiles "laravel").map
          (fun fileName => ["Preset file ", fileName, " already exists."]) ∧
      ∀ n c, Event.WriteFile n c ∉ (Execute demoLib conflictPreset ["laravel"]).trace) ∧
    (conflictPreset.Flags.Override = true →
      (∀ x, Event.LookUpFiles x ∉ (Execute demoLib conflictPreset ["laravel"]).trace) ∧
      (Execute demoLib conflictPreset ["laravel"]).err ≠ some ErrPresetFilesAlreadyExists) :=
  C4_conflict_check demoLib conflictPreset ["laravel"] [] "laravel" "" true rfl (by decide)

/-- C6: when `Exists` is false for the preset that the selection yields, be it the
positional argument or the answer to the prompt, `Execute` returns the error
`Unknown preset <id>` right after the `Exists` query: `LookUpFiles`,
`GetPresetContents` and `WriteFile` are never called, no warning or line is printed and
success is not reported. -/
theorem C6_unknown_preset (lib : Lib) (p : KoolPreset) (args : List String) (t : List Event)
    (preset database : String) (dc : Bool)
    (hsel : selectPreset p args = ⟨t, .ok (preset, database, dc)⟩)
    (hunknown : p.parser.Exists preset = false) :
    (Execute lib p args).err = some ⟨"Unknown preset " ++ preset⟩ ∧
    (Execute lib p args).trace = t ++ [Event.Exists preset] ∧
    (∀ ev ∈ t, ev.isSelection) ∧
    (∀ x, Event.LookUpFiles x ∉ (Execute lib p args).trace) ∧
    (∀ x, Event.GetPresetContents x ∉ (Execute lib p args).trace) ∧
    (∀ n c, Event.WriteFile n c ∉ (Execute lib p args).trace) ∧
    (∀ a, Event.Warning a ∉ (Execute lib p args).trace) ∧
    (∀ a, Event.Println a ∉ (Execute lib p args).trace) ∧
    (∀ a, Event.Success a ∉ (Execute lib p args).trace) := by
  have hE := Execute_of_select lib p args t preset database dc hsel
  rw [materialize_unknown lib p preset database dc hunknown] at hE
  have htsel : ∀ ev ∈ t, ev.isSelection := by
    intro ev hev
    have := selectPreset_events p args ev
    rw [hsel] at this
    exact this hev
  rw [hE]
  refine ⟨rfl, rfl, htsel, ?_, ?_, ?_, ?_, ?_, ?_⟩ <;>
    (intros
     intro hm
     simp at hm
     have := htsel _ hm
     simp [Event.isSelection] at this)

/-- C6, witnessed: the positional argument names no preset. -/
theorem C6_unknown_preset_witness :
    (Execute demoLib demoPreset ["symfony"]).err = some ⟨"Unknown preset " ++ "symfony"⟩ ∧
    (Execute demoLib demoPreset ["symfony"]).trace = [] ++ [Event.Exists "symfony"] ∧
    (∀ ev ∈ ([] : List Event), ev.isSelection) ∧
    (∀ x, Event.LookUpFiles x ∉ (Execute demoLib demoPreset ["symfony"]).trace) ∧
    (∀ x, Event.GetPresetContents x ∉ (Execute demoLib demoPreset ["symfony"]).trace) ∧
    (∀ n c, Event.WriteFile n c ∉ (Execute demoLib demoPreset ["symfony"]).trace) ∧
    (∀ a, Event.Warning a ∉ (Execute demoLib demoPreset ["symfony"]).trace) ∧
    (∀ a, Event.Println a ∉ (Execute demoLib demoPreset ["symfony"]).trace) ∧
    (∀ a, Event.Success a ∉ (Execute demoLib demoPreset ["symfony"]).trace) :=
  C6_unknown_preset demoLib demoPreset ["symfony"] [] "symfony" "" true rfl (by decide)

/-- Every error of the steps after the selection differs from the terminal error. -/
theorem materialize_err_ne_notTTY (lib : Lib) (p : KoolPreset) (preset database : String)
    (dc : Bool) : (materialize lib p preset database dc).err ≠ some errNotTTY := by
  rcases hE : p.parser.Exists preset with _ | _
  · rw [materialize_unknown lib p preset database dc hE]
    simp only [Eff.err_mk_error, ne_eq, Option.some.injEq]
    exact errUnknownPreset_ne_notTTY preset
  · rcases materialize_cases lib p preset database dc hE with
      ⟨e, he, hM⟩ | ⟨_, e, hR, hM⟩ | ⟨_, hR, hM⟩
    · rw [hM]
      simp only [Eff.err_mk_error, ne_eq, Option.some.injEq]
      rcases checkConflicts_cases p preset with ⟨_, h1⟩ | ⟨_, _, h1⟩ | ⟨_, _, h1⟩ <;>
        rw [h1] at he <;> simp at he
      rw [← he]
      exact conflict_ne_notTTY
    · rw [hM]
      obtain ⟨n, e1, he1⟩ := rangeFiles_error_form lib p database dc _ e hR
      rw [he1]
      simp only [Eff.err_mk_error, ne_eq, Option.some.injEq]
      exact errFailedToWrite_ne_notTTY n e1
    · rw [hM]
      simp

/-- C7: when `IsTerminal` is false, `Execute` without argument returns the terminal error
at once: the terminal check is its only event, so no prompt is asked, the parser is not
queried and no file is written.  With one or more arguments the terminal check is not
performed, the terminal error is not returned, and the run is the same as on a
terminal. -/
theorem C7_no_terminal (lib : Lib) (p : KoolPreset) (h : p.IsTerminal = false) :
    (Execute lib p []).err = some errNotTTY ∧
    (Execute lib p []).trace = [Event.IsTerminal] ∧
    (∀ n c, Event.WriteFile n c ∉ (Execute lib p []).trace) ∧
    ∀ (a : String) (rest : List String),
      Event.IsTerminal ∉ (Execute lib p (a :: rest)).trace ∧
      (Execute lib p (a :: rest)).err ≠ some errNotTTY ∧
      Execute lib p (a :: rest) = Execute lib { p with IsTerminal := true } (a :: rest) := by
  have h0 : Execute lib p [] = ⟨[Event.IsTerminal], .error errNotTTY⟩ := by
    rw [Execute_eq, selectPreset_notTTY p h]
    rfl
  refine ⟨by rw [h0]; rfl, by rw [h0], by rw [h0]; simp, ?_⟩
  intro a rest
  have hE := Execute_of_select lib p (a :: rest) [] a "" true (selectPreset_cons p a rest)
  have hE2 := Execute_of_select lib { p with IsTerminal := true } (a :: rest) [] a "" true
    (selectPreset_cons _ a rest)
  refine ⟨?_, ?_, ?_⟩
  · intro hm
    rw [hE] at hm
    simp only [List.nil_append] at hm
    rcases hP : p.parser.Exists a with _ | _
    · rw [materialize_unknown lib p a "" true hP] at hm
      simp at hm
    · rcases materialize_cases lib p a "" true hP with
        ⟨e, he, hM⟩ | ⟨_, e, hR, hM⟩ | ⟨_, hR, hM⟩ <;> rw [hM] at hm <;> simp at hm
      · rcases checkConflicts_events p a _ hm with h1 | ⟨x, h1⟩ <;> cases h1
      · rcases hm with hm | hm
        · rcases checkConflicts_events p a _ hm with h1 | ⟨x, h1⟩ <;> cases h1
        · rcases rangeFiles_events lib p "" true _ _ hm with
            ⟨n, c, h1⟩ | ⟨d, h1⟩ | ⟨d, h1⟩ <;> cases h1
      · rcases hm with hm | hm
        · rcases checkConflicts_events p a _ hm with h1 | ⟨x, h1⟩ <;> cases h1
        · rcases rangeFiles_events lib p "" true _ _ hm with
            ⟨n, c, h1⟩ | ⟨d, h1⟩ | ⟨d, h1⟩ <;> cases h1
  · rw [hE]
    exact materialize_err_ne_notTTY lib p a "" true
  · rw [hE, hE2, materialize_congr lib p { p with IsTerminal := true } a "" true rfl rfl]

/-- C7, witnessed: the command runs without a terminal. -/
theorem C7_no_terminal_witness :
    (Execute demoLib noTerminalPreset []).err = some errNotTTY ∧
    (Execute demoLib noTerminalPreset []).trace = [Event.IsTerminal] ∧
    (∀ n c, Event.WriteFile n c ∉ (Execute demoLib noTerminalPreset []).trace) ∧
    ∀ (a : String) (rest : List String),
      Event.IsTerminal ∉ (Execute demoLib noTerminalPreset (a :: rest)).trace ∧
      (Execute demoLib noTerminalPreset (a :: rest)).err ≠ some errNotTTY ∧
      Execute demoLib noTerminalPreset (a :: rest) =
        Execute demoLib { noTerminalPreset with IsTerminal := true } (a :: rest) :=
  C7_no_terminal demoLib noTerminalPreset rfl

theorem GoError.eq_iff (a b : GoError) : a = b ↔ a.Error = b.Error := by
  cases a
  cases b
  simp

/-- C5, amended: in a run of `Execute` that passes validation and the conflict check, in
which the composition of `docker-compose.yml` (when one is attempted) succeeds and every
write succeeds, `Execute` returns no error and each (file name, content) pair of
`GetPresetContents(preset)` is passed to `WriteFile` once, in order, with the static
content, except `docker-compose.yml` in a run without positional argument, which gets the
composed document; a run with a positional argument writes every file verbatim and
parses and marshals nothing. -/
theorem C5_files_written (lib : Lib) (p : KoolPreset) (args : List String) (t : List Event)
    (preset database : String) (dc : Bool) (composed : String)
    (hsel : selectPreset p args = ⟨t, .ok (preset, database, dc)⟩)
    (hknown : p.parser.Exists preset = true)
    (hconf : p.Flags.Override = true ∨ p.parser.LookUpFiles preset = [])
    (hcomp : dc = false →
      (∃ c, ("docker-compose.yml", c) ∈ p.parser.GetPresetContents preset) →
      (composeDockerCompose lib "docker-compose.yml" database).result = .ok composed)
    (hwrite : ∀ f ∈ p.parser.GetPresetContents preset, (p.parser.WriteFile f.1
      (if f.1 = "docker-compose.yml" ∧ dc = false then composed else f.2)).2 = none) :
    (Execute lib p args).err = none ∧
    writesOf (Execute lib p args).trace =
      (p.parser.GetPresetContents preset).map (fun f =>
        (f.1, if f.1 = "docker-compose.yml" ∧ dc = false then composed else f.2)) ∧
    (args = [] → dc = false) ∧
    (args ≠ [] →
      writesOf (Execute lib p args).trace = p.parser.GetPresetContents preset ∧
      (∀ d, Event.parseYml d ∉ (Execute lib p args).trace) ∧
      ∀ doc, Event.Marshal doc ∉ (Execute lib p args).trace) := by
  have hE := Execute_of_select lib p args t preset database dc hsel
  have htsel : ∀ ev ∈ t, ev.isSelection := by
    intro ev hev
    have := selectPreset_events p args ev
    rw [hsel] at this
    exact this hev
  have htW : writesOf t = [] := writesOf_eq_nil t (fun n c hm => by
    have := htsel _ hm
    simp [Event.isSelection] at this)
  obtain ⟨hR1, hR2, hR3⟩ := rangeFiles_ok lib p database dc
    (p.parser.GetPresetContents preset) composed hcomp hwrite
  have hCC : (checkConflicts p preset).result = .ok () := by
    rcases checkConflicts_cases p preset with ⟨_, h1⟩ | ⟨_, _, h1⟩ | ⟨hO, hF, _⟩
    · rw [h1]
    · rw [h1]
    · rcases hconf with h | h
      · rw [hO] at h
        cases h
      · exact absurd h hF
  have hCW : writesOf (checkConflicts p preset).trace = [] :=
    writesOf_eq_nil _ (fun n c hm => by
      rcases checkConflicts_events p preset _ hm with h | ⟨a, h⟩ <;> cases h)
  have hM : materialize lib p preset database dc =
      ⟨[Event.Exists preset, Event.Println ["Preset", preset, "is initializing!"]] ++
        (checkConflicts p preset).trace ++ [Event.GetPresetContents preset] ++
        (rangeFiles lib p database dc (p.parser.GetPresetContents preset)).trace ++
        [Event.Success ["Preset ", preset, " initialized!"]], .ok ()⟩ := by
    rcases materialize_cases lib p preset database dc hknown with
      ⟨e, he, _⟩ | ⟨_, e, hR, _⟩ | ⟨_, _, hM⟩
    · rw [hCC] at he
      cases he
    · rw [hR1] at hR
      cases hR
    · exact hM
  have hWr : writesOf (Execute lib p args).trace =
      (p.parser.GetPresetContents preset).map (fun f =>
        (f.1, if f.1 = "docker-compose.yml" ∧ dc = false then composed else f.2)) := by
    rw [hE, hM]
    simp only [writesOf_append, htW, hCW, hR2]
    simp [writesOf]
  refine ⟨by rw [hE, hM]; rfl, hWr, ?_, ?_⟩
  · intro hargs
    subst hargs
    exact selectPreset_nil_defaultCompose p preset database dc (by rw [hsel])
  · intro hargs
    obtain ⟨a, rest, rfl⟩ := List.exists_cons_of_ne_nil hargs
    rw [selectPreset_cons] at hsel
    simp only [Eff.mk.injEq, Except.ok.injEq, Prod.mk.injEq] at hsel
    obtain ⟨_, h1, h2, h3⟩ := hsel
    subst h1 h2 h3
    have hnc : ∀ ev ∈ (Execute lib p (a :: rest)).trace, ¬ ev.isCompose := by
      intro ev hev hc
      rcases Execute_shape lib p (a :: rest) with ⟨_, hearly⟩ |
        ⟨pre, preset1, database1, dc1, hsel1, hpre, hrun⟩
      · exact Event.isEarly_not_loop (hearly _ hev) (Or.inr hc)
      · rw [selectPreset_cons] at hsel1
        simp only [Except.ok.injEq, Prod.mk.injEq] at hsel1
        obtain ⟨h1, h2, h3⟩ := hsel1
        subst h1 h2 h3
        have hsuc : ∀ x, ¬ (Event.Success x).isCompose := by
          intro x hx
          simp [Event.isCompose] at hx
        rcases hrun with ⟨e0, _, hEx⟩ | ⟨_, hEx⟩ <;> rw [hEx] at hev <;> simp at hev
        · rcases hev with hm | hm
          · exact Event.isEarly_not_loop (hpre _ hm) (Or.inr hc)
          · have := (rangeFiles_compose_mem lib p "" true _ _ hm hc).1
            cases this
        · rcases hev with hm | hm | hm
          · exact Event.isEarly_not_loop (hpre _ hm) (Or.inr hc)
          · have := (rangeFiles_compose_mem lib p "" true _ _ hm hc).1
            cases this
          · rw [hm] at hc
            exact hsuc _ hc
    refine ⟨?_, fun d hm => hnc _ hm (Or.inl ⟨d, rfl⟩), fun d hm => hnc _ hm (Or.inr ⟨d, rfl⟩)⟩
    rw [hWr]
    simp

/-- C5, witnessed: the run without argument in which the user picks `My SQL`. -/
theorem C5_files_written_witness :
    (Execute demoLib demoPreset []).err = none ∧
    writesOf (Execute demoLib demoPreset []).trace =
      (demoPreset.parser.GetPresetContents "laravel").map (fun f =>
        (f.1, if f.1 = "docker-compose.yml" ∧ false = false then "composed" else f.2)) ∧
    (([] : List String) = [] → false = false) ∧
    (([] : List String) ≠ [] →
      writesOf (Execute demoLib demoPreset []).trace =
        demoPreset.parser.GetPresetContents "laravel" ∧
      (∀ d, Event.parseYml d ∉ (Execute demoLib demoPreset []).trace) ∧
      ∀ doc, Event.Marshal doc ∉ (Execute demoLib demoPreset []).trace) :=
  C5_files_written demoLib demoPreset []
    [Event.IsTerminal, Event.GetLanguages,
      Event.Ask "What language do you want to use" ["php"],
      Event.GetPresets "php",
      Event.Ask "What preset do you want to use" ["laravel"],
      Event.GetPresetMetaValue "laravel" "ask_database",
      Event.Ask "What database do you want to use" ["My SQL", "PostgreSQL 13.0"]]
    "laravel" "My SQL" false "composed" rfl (by decide) (Or.inr rfl) (fun _ _ => rfl)
    (by decide)

/-- C5 as stated fails: in this run without argument the preset is known, no file
exists and no write fails, yet the application template does not parse, so the pair for
`docker-compose.yml` is never passed to `WriteFile` and `Execute` returns an error. -/
theorem C5_counterexample_composition_fails :
    (selectPreset demoPreset []).result = .ok ("laravel", "My SQL", false) ∧
    demoPreset.parser.Exists "laravel" = true ∧
    demoPreset.parser.LookUpFiles "laravel" = [] ∧
    (∀ n c, (demoPreset.parser.WriteFile n c).2 = none) ∧
    ("docker-compose.yml", "static") ∈ demoPreset.parser.GetPresetContents "laravel" ∧
    writesOf (Execute appBrokenLib demoPreset []).trace = [("kool.yml", "scripts")] ∧
    (∀ c, Event.WriteFile "docker-compose.yml" c ∉ (Execute appBrokenLib demoPreset []).trace) ∧
    (Execute appBrokenLib demoPreset []).err =
      some (errFailedToWrite "docker-compose.yml" ⟨"yaml: unmarshal errors"⟩) := by
  refine ⟨rfl, rfl, rfl, fun _ _ => rfl, by decide, rfl, ?_, by decide⟩
  intro c hm
  have h := (mem_writesOf _ _ _).mpr hm
  rw [show writesOf (Execute appBrokenLib demoPreset []).trace = [("kool.yml", "scripts")]
    from rfl] at h
  simp at h

/-- C10: the handler built by `NewPresetCommand` runs `Execute` and then, for its result,
exits with code 2 after the override hint exactly when the error is
`ErrPresetFilesAlreadyExists`, exits with code 0 after the cancellation warning exactly
when the error is the prompt-interrupted error, exits with code 1 after reporting the
error for every other error, and does not exit when `Execute` returns no error.  The two
distinguished errors are compared by message, so they are assumed to carry different
messages. -/
theorem C10_exit_codes (lib : Lib) (p : KoolPreset) (args : List String)
    (hdist : lib.ErrPromptSelectInterrupted.Error ≠ ErrPresetFilesAlreadyExists.Error) :
    NewPresetCommand lib p args =
      [Event.SetWriter] ++ (Execute lib p args).trace ++
        handleResult lib (Execute lib p args).err ∧
    ((Execute lib p args).err = some ErrPresetFilesAlreadyExists →
      handleResult lib (Execute lib p args).err =
        [Event.Warning
          ["Some preset files already exist. In case you wanna override them, use --override."],
          Event.Exit 2]) ∧
    ((Execute lib p args).err = some lib.ErrPromptSelectInterrupted →
      handleResult lib (Execute lib p args).err =
        [Event.Warning ["Operation Cancelled"], Event.Exit 0]) ∧
    (∀ e, (Execute lib p args).err = some e → e ≠ ErrPresetFilesAlreadyExists →
      e ≠ lib.ErrPromptSelectInterrupted →
      handleResult lib (Execute lib p args).err = [Event.Error e, Event.Exit 1]) ∧
    ((Execute lib p args).err = none → handleResult lib (Execute lib p args).err = []) ∧
    (Event.Exit 2 ∈ handleResult lib (Execute lib p args).err ↔
      (Execute lib p args).err = some ErrPresetFilesAlreadyExists) ∧
    (Event.Exit 0 ∈ handleResult lib (Execute lib p args).err ↔
      (Execute lib p args).err = some lib.ErrPromptSelectInterrupted) ∧
    (Event.Exit 1 ∈ handleResult lib (Execute lib p args).err ↔
      ∃ e, (Execute lib p args).err = some e ∧ e ≠ ErrPresetFilesAlreadyExists ∧
        e ≠ lib.ErrPromptSelectInterrupted) ∧
    ((∀ code, Event.Exit code ∉ handleResult lib (Execute lib p args).err) ↔
      (Execute lib p args).err = none) := by
  refine ⟨rfl, ?_⟩
  generalize (Execute lib p args).err = r
  rcases r with _ | e
  · simp [handleResult]
  · by_cases h1 : e.Error = ErrPresetFilesAlreadyExists.Error
    · have he : e = ErrPresetFilesAlreadyExists := (GoError.eq_iff _ _).mpr h1
      subst he
      have hne : ErrPresetFilesAlreadyExists ≠ lib.ErrPromptSelectInterrupted :=
        fun h => hdist (by rw [← h])
      simp [handleResult, hne]
    · have hne1 : e ≠ ErrPresetFilesAlreadyExists := fun h => h1 (by rw [h])
      by_cases h2 : e.Error = lib.ErrPromptSelectInterrupted.Error
      · have he : e = lib.ErrPromptSelectInterrupted := (GoError.eq_iff _ _).mpr h2
        subst he
        simp [handleResult, h1, hne1]
      · have hne2 : e ≠ lib.ErrPromptSelectInterrupted := fun h => h2 (by rw [h])
        simp [handleResult, h1, h2, hne1, hne2]

/-- C10, witnessed: the conflict of `kool.yml` ends the command with exit code 2. -/
theorem C10_exit_codes_witness :
    NewPresetCommand demoLib conflictPreset ["laravel"] =
      [Event.SetWriter, Event.Exists "laravel",
        Event.Println ["Preset", "laravel", "is initializing!"],
        Event.LookUpFiles "laravel",
        Event.Warning ["Preset file ", "kool.yml", " already exists."],
        Event.Warning
          ["Some preset files already exist. In case you wanna override them, use --override."],
        Event.Exit 2] ∧
    (Event.Exit 2 ∈ handleResult demoLib (Execute demoLib conflictPreset ["laravel"]).err ↔
      (Execute demoLib conflictPreset ["laravel"]).err = some ErrPresetFilesAlreadyExists) :=
  ⟨(C10_exit_codes demoLib conflictPreset ["laravel"] (by decide)).1.trans rfl,
    (C10_exit_codes demoLib conflictPreset ["laravel"] (by decide)).2.2.2.2.2.1⟩

end Kool
